import Mathlib

/-!
Shallow embedding of the record-reconciliation, deduplication and enrichment
logic of the austin-construction-contracts scrapers, with proofs of the
behavioural properties stated in the specification.

Each namespace below mirrors one Python source file; within a namespace the
definitions keep the names of the functions they embed.  Spreadsheet cells are
modelled as strings, snapshots as lists of rows (`List (List String)`), and
dollar amounts as rationals (Python's binary floating point rounding plays no
role in any property considered here, which only distinguish zero, non-zero
and string-level parses).
-/

/- ### Python string and number primitives shared by the scripts -/

/-- Python `s.replace(c, "")` for a one-character pattern: drops every
occurrence of the character. -/
def removeChar (c : Char) (s : String) : String :=
  String.mk (s.data.filter (fun a => a != c))

/-- The whitespace characters recognised by Python `str.strip()` that can
occur in this data (ASCII whitespace and separator controls). -/
def pyWs (c : Char) : Bool :=
  c.toNat = 32 || (9 ≤ c.toNat && c.toNat ≤ 13) || (28 ≤ c.toNat && c.toNat ≤ 31)

/-- Python `str.strip()`: remove leading and trailing whitespace. -/
def pyStrip (s : String) : String :=
  String.mk (((s.data.dropWhile pyWs).reverse.dropWhile pyWs).reverse)

/-- Python `str.upper()` over the ASCII data handled here. -/
def pyUpper (s : String) : String := String.mk (s.data.map Char.toUpper)

/-- Python `str.lower()` over the ASCII data handled here. -/
def pyLower (s : String) : String := String.mk (s.data.map Char.toLower)

/-- One run of decimal digits in which an underscore may appear only between
two digits (as Python numeric strings allow).  Accumulates the digits with
underscores removed and returns them with the unconsumed remainder. -/
def digitRunGo (acc : List Char) : List Char → List Char × List Char
  | '_' :: c :: cs =>
    if c.isDigit then digitRunGo (acc ++ [c]) cs else (acc, '_' :: c :: cs)
  | c :: cs =>
    if c.isDigit then digitRunGo (acc ++ [c]) cs else (acc, c :: cs)
  | [] => (acc, [])

/-- A digit run must begin with a digit; returns `none` otherwise. -/
def digitRun : List Char → Option (List Char × List Char)
  | c :: cs => if c.isDigit then some (digitRunGo [c] cs) else none
  | [] => none

/-- Numeric value of a list of decimal digits. -/
def digitsVal (ds : List Char) : Nat :=
  ds.foldl (fun a c => 10 * a + (c.toNat - 48)) 0

/-- Exponent digits: a digit run that must consume the whole remainder. -/
def expDigits (sgn : Int) (cs : List Char) : Option Int :=
  match digitRun cs with
  | some (ds, []) => some (sgn * (digitsVal ds : Int))
  | _ => none

/-- The optional exponent tail of a Python float literal: either nothing, or
`e`/`E` followed by an optional sign and digits consuming the rest. -/
def expTail : List Char → Option Int
  | [] => some 0
  | 'e' :: rest =>
    match rest with
    | '+' :: r => expDigits 1 r
    | '-' :: r => expDigits (-1) r
    | r => expDigits 1 r
  | 'E' :: rest =>
    match rest with
    | '+' :: r => expDigits 1 r
    | '-' :: r => expDigits (-1) r
    | r => expDigits 1 r
  | _ => none

/-- A successfully parsed Python float literal, kept in the exact form
`±mant · 10^(-scale) · 10^ex` so that parsing is kernel-computable. -/
structure PyNum where
  neg : Bool
  mant : Nat
  scale : Nat
  ex : Int
deriving DecidableEq, Repr

/-- Exact rational value of a parsed literal. -/
def PyNum.val (n : PyNum) : ℚ :=
  (if n.neg then -1 else 1) * (n.mant : ℚ) / (10 : ℚ) ^ n.scale * (10 : ℚ) ^ n.ex

/-- Model of Python `float(s)` on finite decimal literals: optional
surrounding whitespace, optional sign, then `digits [. [digits]] [exp]` or
`. digits [exp]`, with underscores allowed between digits.  The `inf`/`nan`
spellings (which Python parses to non-finite floats) fall outside this
rational model and return `none`; no claim settled in this file evaluates the
parser on them. -/
def pyFloatParse (s : String) : Option PyNum :=
  let sgnCs : Bool × List Char :=
    match (pyStrip s).data with
    | '+' :: r => (false, r)
    | '-' :: r => (true, r)
    | r => (false, r)
  let neg := sgnCs.1
  match sgnCs.2 with
  | '.' :: rest =>
    match digitRun rest with
    | some (fs, r1) =>
      match expTail r1 with
      | some e => some ⟨neg, digitsVal fs, fs.length, e⟩
      | none => none
    | none => none
  | other =>
    match digitRun other with
    | some (is, r1) =>
      match r1 with
      | '.' :: r2 =>
        match digitRun r2 with
        | some (fs, r3) =>
          match expTail r3 with
          | some e => some ⟨neg, digitsVal is * 10 ^ fs.length + digitsVal fs, fs.length, e⟩
          | none => none
        | none =>
          match expTail r2 with
          | some e => some ⟨neg, digitsVal is, 0, e⟩
          | none => none
      | _ =>
        match expTail r1 with
        | some e => some ⟨neg, digitsVal is, 0, e⟩
        | none => none
    | none => none

/-- Python `float(s)` as an exact rational, `none` on `ValueError`. -/
def pyFloatQ (s : String) : Option ℚ :=
  (pyFloatParse s).map PyNum.val

namespace austin_contracts

/-- `parse_amount` from src/austin_contracts.py: returns `0.0` on a falsy
(empty) input, otherwise removes commas and parses with `float`, catching
`ValueError` as `0.0`.  Note that it does not remove `$`. -/
def parse_amount (amount_str : String) : ℚ :=
  if amount_str = "" then 0
  else
    match pyFloatParse (removeChar ',' amount_str) with
    | some n => n.val
    | none => 0

end austin_contracts

namespace import_usaspending

/-- `parse_amount` from src/import_usaspending.py: returns `0` on a falsy
(empty) input, otherwise removes `$` then `,` and parses with `float`,
catching `ValueError` as `0`. -/
def parse_amount (val : String) : ℚ :=
  if val = "" then 0
  else
    match pyFloatParse (removeChar ',' (removeChar '$' val)) with
    | some n => n.val
    | none => 0

end import_usaspending

/-- Python regex word characters (`\w`) over the ASCII data handled here:
letters, digits and underscore. -/
def isWordChar (c : Char) : Bool := c.isAlphanum || c = '_'

/-- A `\b` word boundary between two adjacent positions whose characters are
`a` (left) and `b` (right), `none` denoting the edge of the string. -/
def boundary (a b : Option Char) : Bool :=
  ((a.map isWordChar).getD false) != ((b.map isWordChar).getD false)

/-- `re.sub(rf"\b{pat}\b", "", text)` for a literal pattern: remove every
non-overlapping word-bounded occurrence, scanning left to right over the
original string.  `prev` is the character preceding the current position and
`fuel` starts at the list length (every step consumes at least one character,
so the fuel never runs out). -/
def removeWordGo (pat : List Char) : Nat → Option Char → List Char → List Char
  | _, _, [] => []
  | 0, _, l => l
  | fuel + 1, prev, c :: cs =>
    if !pat.isEmpty && pat.isPrefixOf (c :: cs) &&
        boundary prev pat.head? &&
        boundary pat.getLast? (((c :: cs).drop pat.length).head?) then
      removeWordGo pat fuel pat.getLast? ((c :: cs).drop pat.length)
    else
      c :: removeWordGo pat fuel (some c) cs

/-- First occurrence split: the text before and after the first occurrence of
`sep`; `none` when `sep` does not occur. -/
def splitOnceSub (sep : List Char) : List Char → Option (List Char × List Char)
  | [] => if sep = [] then some ([], []) else none
  | c :: cs =>
    if sep.isPrefixOf (c :: cs) then some ([], (c :: cs).drop sep.length)
    else
      match splitOnceSub sep cs with
      | some (pre, post) => some (c :: pre, post)
      | none => none

/-- Python `pat in s` (substring containment). -/
def hasSubstring (pat : String) (s : String) : Bool :=
  (splitOnceSub pat.data s.data).isSome

/-- `urlparse(u).netloc.lower()` with the `www.` prompt stripped, for the
scheme-qualified URLs this code handles: the text after the first `"://"` up
to the next `/`, `?` or `#`, lowercased.  (The scripts prepend `https://`
before parsing whenever `"://"` is absent, so the scheme-less corner cases of
`urlparse` never arise.) -/
def urlNetloc (url : String) : String :=
  let u := if hasSubstring "://" url then url else "https://" ++ url
  match splitOnceSub ("://".data) u.data with
  | some (_, rest) =>
    let dom := (rest.takeWhile (fun c => !(c = '/' || c = '?' || c = '#'))).map Char.toLower
    let dom := if ("www.".data).isPrefixOf dom then dom.drop 4 else dom
    String.mk dom
  | none => ""

/-- Lookup in a Python dict modelled as an assignment list: the latest
assignment to a key wins. -/
def dictLookup {α : Type} [BEq α] (m : List (α × String)) (k : α) : Option String :=
  (m.reverse.find? (fun p => p.1 == k)).map Prod.snd

/-- Python `k in d` for the same dict model. -/
def dictContains {α : Type} [BEq α] (m : List (α × String)) (k : α) : Bool :=
  m.any (fun p => p.1 == k)

/-- `re.sub(r"\s+", " ", s)` followed by `.strip()`: collapse every
whitespace run into one space and drop the ends. -/
def collapseWsGo : List Char → List Char
  | [] => []
  | c :: cs =>
    if pyWs c then
      match collapseWsGo cs with
      | [] => []
      | ' ' :: rest => ' ' :: rest
      | rest => ' ' :: rest
    else c :: collapseWsGo cs

/-- Whitespace collapsing plus strip, as `normalize_company_name` ends with. -/
def collapseWs (s : String) : String :=
  String.mk
    (match collapseWsGo s.data with
     | ' ' :: rest => rest
     | rest => rest)

/-- The append-mode write plan of a `write_to_google_sheets` call (the pure
part of the function that decides what gets written): whether the header row
is written, the data rows appended, and the 1-based row the append starts at. -/
structure AppendPlan where
  header_written : Bool
  rows : List (List String)
  start_row : Nat
deriving DecidableEq, Repr

namespace sf_contracts

/-- One normalized scrape result (the dict built by `scrape_all` in
src/sf_contracts.py); every sheet cell is modelled as a string. -/
structure Rec where
  city : String
  company_name : String
  contact_name : String
  phone : String
  email : String
  address : String
  website : String
  contract_name : String
  award_amount : String
  amount_expended : String
  begin_date : String
  award_link : String
  description : String
  commodity_type : String
deriving DecidableEq, Repr

/-- `SHEET_HEADERS` from src/sf_contracts.py. -/
def SHEET_HEADERS : List String :=
  ["City", "Company Name", "Contact Name", "Phone", "Email",
   "Address", "Website",
   "Contract Name", "Award Amount", "Amount Expended", "Begin Date",
   "Award Link", "Project Description", "Commodity Type"]

/-- `[r.get(f, "") for f in SHEET_FIELDS]`: one sheet row in field order. -/
def recRow (r : Rec) : List String :=
  [r.city, r.company_name, r.contact_name, r.phone, r.email,
   r.address, r.website,
   r.contract_name, r.award_amount, r.amount_expended, r.begin_date,
   r.award_link, r.description, r.commodity_type]

/-- Row indexing as the Python code guards it (`row[i]` only under a length
test, so out-of-range reads default to the empty cell). -/
def getCell (row : List String) (i : Nat) : String := row.getD i ""

/-- `get_existing_data`: the snapshot read with its `try/except` — a failed
read, or a response without a `values` key, yields the empty row list. -/
def get_existing_data (fetch : Except String (Option (List (List String)))) :
    List (List String) :=
  match fetch with
  | .ok (some values) => values
  | .ok none => []
  | .error _ => []

/-- The dedup fingerprint of an incoming record:
`(company_name.strip().lower(), contract_name.strip().lower())`. -/
def recKey (r : Rec) : String × String :=
  (pyLower (pyStrip r.company_name), pyLower (pyStrip r.contract_name))

/-- The identity index built from the snapshot: the fingerprint set over
`existing[1:]` (header dropped when present) keeping rows longer than 7
cells, as in `write_to_google_sheets`. -/
def existing_fps (existing : List (List String)) : List (String × String) :=
  ((if existing.length > 1 then existing.tail else []).filter
      (fun row => decide (7 < row.length))).map
    (fun row => (pyLower (pyStrip (getCell row 1)), pyLower (pyStrip (getCell row 7))))

/-- `new_results`: the incoming records whose fingerprint is absent from the
snapshot index, in input order. -/
def new_results (results : List Rec) (existing : List (List String)) : List Rec :=
  results.filter (fun r => decide (recKey r ∉ existing_fps existing))

/-- The append-mode branch of `write_to_google_sheets`. -/
def append_plan (results : List Rec) (existing : List (List String)) : AppendPlan :=
  { header_written := existing.isEmpty
    rows := (new_results results existing).map recRow
    start_row := if existing.isEmpty then 2 else existing.length + 1 }

/-- The snapshot contents after an append-mode run. -/
def store_after (results : List Rec) (existing : List (List String)) :
    List (List String) :=
  (if existing.isEmpty then [SHEET_HEADERS] else existing) ++
    (append_plan results existing).rows

end sf_contracts

namespace iowa_contractors

/-- One scrape result of src/iowa_contractors.py, restricted to the fields
the sheet writer reads (`SHEET_FIELDS`). -/
structure Rec where
  city : String
  company_name : String
  contact_name : String
  phone : String
  email : String
  address : String
  website : String
  contract_name : String
  award_amount : String
  amount_expended : String
  begin_date : String
  award_link : String
  description : String
  commodity_type : String
deriving DecidableEq, Repr

/-- `SHEET_HEADERS` from src/iowa_contractors.py. -/
def SHEET_HEADERS : List String :=
  ["State", "Company Name", "Contact Name", "Phone", "Email",
   "Address", "Website",
   "Contract Name", "Award Amount", "Amount Expended", "Registration Date",
   "Award Link", "Description", "Trade Category"]

/-- `[r.get(f, "") for f in SHEET_FIELDS]`. -/
def recRow (r : Rec) : List String :=
  [r.city, r.company_name, r.contact_name, r.phone, r.email,
   r.address, r.website,
   r.contract_name, r.award_amount, r.amount_expended, r.begin_date,
   r.award_link, r.description, r.commodity_type]

/-- `get_existing_data` of src/iowa_contractors.py (identical fail-open
pattern). -/
def get_existing_data (fetch : Except String (Option (List (List String)))) :
    List (List String) :=
  match fetch with
  | .ok (some values) => values
  | .ok none => []
  | .error _ => []

/-- The append-mode branch of iowa's `write_to_google_sheets`: note there is
no deduplication against the snapshot — every result row is appended. -/
def append_plan (results : List Rec) (existing : List (List String)) : AppendPlan :=
  { header_written := existing.isEmpty
    rows := results.map recRow
    start_row := if existing.isEmpty then 2 else existing.length + 1 }

/-- The snapshot contents after an append-mode run. -/
def store_after (results : List Rec) (existing : List (List String)) :
    List (List String) :=
  (if existing.isEmpty then [SHEET_HEADERS] else existing) ++
    (append_plan results existing).rows

end iowa_contractors

namespace txsmartbuy_contracts

/-- One scrape result of src/txsmartbuy_contracts.py, restricted to its
`SHEET_FIELDS`. -/
structure Rec where
  contract_number : String
  description : String
  naics_code : String
  naics_category : String
  contractor_name : String
  contractor_email : String
  contractor_phone : String
  award_amount : String
  start_date : String
  end_date : String
  nigp_codes : String
  contract_type : String
  contract_category : String
  detail_url : String
deriving DecidableEq, Repr

/-- `[r.get(f, "") for f in SHEET_FIELDS]`. -/
def recRow (r : Rec) : List String :=
  [r.contract_number, r.description, r.naics_code, r.naics_category,
   r.contractor_name, r.contractor_email, r.contractor_phone,
   r.award_amount, r.start_date, r.end_date, r.nigp_codes,
   r.contract_type, r.contract_category, r.detail_url]

/-- The append-mode branch of txsmartbuy's `write_to_google_sheets`: like
iowa's, it appends every result row with no deduplication. -/
def append_plan (results : List Rec) (existing : List (List String)) : AppendPlan :=
  { header_written := existing.isEmpty
    rows := results.map recRow
    start_row := if existing.isEmpty then 2 else existing.length + 1 }

end txsmartbuy_contracts

namespace tn_tdot_contracts

/-- `get_existing_data` of src/tn_tdot_contracts.py (identical fail-open
pattern). -/
def get_existing_data (fetch : Except String (Option (List (List String)))) :
    List (List String) :=
  match fetch with
  | .ok (some values) => values
  | .ok none => []
  | .error _ => []

end tn_tdot_contracts

namespace import_usaspending

/-- `row[i] if len(row) > i else ""` as written in the dedup helpers. -/
def getCell (row : List String) (i : Nat) : String := row.getD i ""

/-- The dedup key of one (incoming or stored) sheet row:
`(row[1].strip().upper(), row[10].strip(), row[8].strip())`. -/
def rowKey (row : List String) : String × String × String :=
  (pyUpper (pyStrip (getCell row 1)), pyStrip (getCell row 10), pyStrip (getCell row 8))

/-- `build_dedup_set`: the key set over `existing_rows[1:]`, keeping only
rows with a nonempty company cell. -/
def build_dedup_set (existing_rows : List (List String)) :
    List (String × String × String) :=
  existing_rows.tail.foldl (fun dupes row =>
    let company := pyUpper (pyStrip (getCell row 1))
    let date_val := pyStrip (getCell row 10)
    let amount := pyStrip (getCell row 8)
    if company ≠ "" then dupes ++ [(company, date_val, amount)] else dupes) []

/-- One iteration of the dedup loop in `main`: a duplicate bumps the counter,
anything else is queued for append. -/
def split_step (dedup_set : List (String × String × String))
    (acc : List (List String) × Nat) (row : List String) :
    List (List String) × Nat :=
  if rowKey row ∈ dedup_set then (acc.1, acc.2 + 1) else (acc.1 ++ [row], acc.2)

/-- The dedup pass of `main` (`new_rows` and the `dupes` counter), scanning
mapped rows in input order. -/
def split_new_rows (mapped_rows : List (List String))
    (dedup_set : List (String × String × String)) :
    List (List String) × Nat :=
  mapped_rows.foldl (split_step dedup_set) ([], 0)

end import_usaspending

namespace enrich_companies

/-- `STRIP_SUFFIXES` from src/enrich_companies.py. -/
def STRIP_SUFFIXES : List String :=
  ["INCORPORATED", "INC", "CORPORATION", "CORP", "COMPANY", "CO",
   "LIMITED", "LTD", "LLC", "LP", "LLP", "PLLC", "PC", "PA",
   "GROUP", "HOLDINGS", "ENTERPRISES", "SERVICES",
   "JOINT VENTURE", "JV", "DBA"]

/-- The punctuation class removed by `normalize_company_name` (period,
comma, semicolon, colon, apostrophe, double quote, hyphen, slash, backslash,
parentheses and ampersand). -/
def punctChars : List Char :=
  ['.', ',', ';', ':', '\'', '"', '-', '/', '\\', '(', ')', '&']

/-- The punctuation-to-space substitution of `normalize_company_name`. -/
def punctToSpace (s : String) : String :=
  String.mk (s.data.map (fun c => if c ∈ punctChars then ' ' else c))

/-- `re.sub(r"\b" + re.escape(suffix) + r"\b", "", n)` for one suffix. -/
def stripSuffixWord (n : String) (sfx : String) : String :=
  String.mk (removeWordGo sfx.data n.data.length none n.data)

/-- One pass of the inner suffix loop. -/
def stripSuffixesOnce (n : String) : String :=
  STRIP_SUFFIXES.foldl stripSuffixWord n

/-- `normalize_company_name` from src/enrich_companies.py: uppercase and
strip, replace punctuation by spaces, strip the suffix list three times, then
collapse whitespace. -/
def normalize_company_name (name : String) : String :=
  if name = "" then ""
  else
    let n := pyStrip (pyUpper name)
    let n := punctToSpace n
    let n := (List.range 3).foldl (fun m _ => stripSuffixesOnce m) n
    collapseWs n

/-- `JUNK_DOMAINS` from src/enrich_companies.py. -/
def JUNK_DOMAINS : List String :=
  ["google.com", "support.google.com", "docs.google.com", "maps.google.com",
   "play.google.com", "bing.com", "yahoo.com", "duckduckgo.com",
   "facebook.com", "meta.com", "twitter.com", "x.com",
   "linkedin.com", "instagram.com", "youtube.com", "reddit.com",
   "wikipedia.org", "amazon.com", "netflix.com", "chatgpt.com",
   "yelp.com", "bbb.org", "glassdoor.com", "indeed.com",
   "api.sam.gov", "sam.gov", "usaspending.gov",
   "zhihu.com", "zhidao.baidu.com", "baidu.com", "bbs.csdn.net",
   "jingyan.baidu.com", "tieba.baidu.com",
   "sporzip.com", "101-help.com", "tr.101-help.com",
   "lubimyczytac.pl", "globle.org"]

/-- `JUNK_TLDS` from src/enrich_companies.py. -/
def JUNK_TLDS : List String :=
  [".de", ".fr", ".pl", ".hu", ".gr", ".dk", ".ru", ".cn", ".jp",
   ".kr", ".br", ".it", ".es", ".pt", ".nl", ".se", ".no", ".fi",
   ".cz", ".sk", ".ro", ".bg", ".hr", ".rs", ".ua", ".by"]

/-- `extract_domain`: clean domain from a URL, `www.` stripped. -/
def extract_domain (url : String) : String := urlNetloc url

/-- `is_blacklisted` from src/enrich_companies.py. -/
def is_blacklisted (url : String) (exact_domains contains_patterns : List String) : Bool :=
  let domain := extract_domain url
  if domain = "" then false
  else if domain ∈ JUNK_DOMAINS then true
  else if JUNK_TLDS.any (fun tld => tld.data.isSuffixOf domain.data) then true
  else if domain ∈ exact_domains then true
  else if contains_patterns.any (fun pat => hasSubstring pat domain) then true
  else false

/-- One iteration of the lookup-building loop in `read_enrichment_data`
(src/enrich_companies.py lines 167-185), over a data row of the enrichment
tab: rows that are too short, have an empty name or a placeholder website, or
a junk/government domain contribute nothing; otherwise the row's website is
assigned to the normalized name (a plain dict assignment, so a later row with
the same key overrides an earlier one). -/
def enrichRowStep (name_col website_col : Nat)
    (lookup : List (String × String)) (row : List String) : List (String × String) :=
  if row.length ≤ max name_col website_col then lookup
  else
    let name := if name_col < row.length then pyStrip (row.getD name_col "") else ""
    let website := if website_col < row.length then pyStrip (row.getD website_col "") else ""
    if name ≠ "" ∧ website ≠ "" ∧
        pyLower website ∉ (["", "no url", "n/a", "none"] : List String) then
      if extract_domain website ∈ JUNK_DOMAINS then lookup
      else
        let norm := normalize_company_name name
        if norm ≠ "" then lookup ++ [(norm, website)] else lookup
    else lookup

/-- The lookup built by `read_enrichment_data` once the name and website
columns have been located: the fold of `enrichRowStep` over `rows[1:]`. -/
def read_enrichment_data (name_col website_col : Nat) (rows : List (List String)) :
    List (String × String) :=
  rows.tail.foldl (enrichRowStep name_col website_col) []

/-- `SEARCH_DAILY_LIMIT` from src/enrich_companies.py. -/
def SEARCH_DAILY_LIMIT : Nat := 50

/-- `load_search_counter`: a missing or unreadable counter file, or one whose
date differs from today, resets to `(today, 0)`; otherwise the persisted
value is returned. -/
def load_search_counter (persisted : Option (String × Nat)) (today : String) :
    String × Nat :=
  match persisted with
  | none => (today, 0)
  | some (d, c) => if d ≠ today then (today, 0) else (d, c)

/-- `f"{parsed.scheme}://{parsed.netloc}"`: the cleaned URL kept by
`search_company_website` (for the scheme-qualified URLs a web search
returns). -/
def clean_url (url : String) : String :=
  match splitOnceSub ("://".data) url.data with
  | some (sch, rest) =>
    String.mk ((sch.map Char.toLower) ++ ("://".data) ++
      rest.takeWhile (fun c => !(c = '/' || c = '?' || c = '#')))
  | none => "://"

/-- `search_company_website`: respects the daily limit, burns one counted
Brave call, and returns the first non-empty, non-blacklisted result URL
cleaned to `scheme://netloc` (or the empty string).  The Brave API is the
oracle `brave` mapping a query to its result URLs. -/
def search_company_website (brave : String → List String) (company_name : String)
    (exact_domains contains_patterns : List String) (count : Nat) : String × Nat :=
  if SEARCH_DAILY_LIMIT ≤ count then ("", count)
  else
    let results := brave (company_name ++ " construction company website")
    let count := count + 1
    match results.find? (fun url =>
        url != "" && !is_blacklisted url exact_domains contains_patterns) with
    | some url => (clean_url url, count)
    | none => ("", count)

/-- The `stats` counters of `enrich` — note there is no "skipped" counter. -/
structure Stats where
  already_has : Nat
  matched : Nat
  brave_found : Nat
  limit_skipped : Nat
  no_match : Nat
deriving DecidableEq, Repr

/-- The mutable state threaded through the `enrich` row loop: the persisted
Brave counter value, the `updates` dict (row index to new website cell, in
assignment order, later assignments overriding) and the counters. -/
structure EnrichState where
  counterCount : Nat
  updates : List (Nat × String)
  stats : Stats
deriving DecidableEq, Repr

/-- `COMPANY_COL` (column B) from `enrich`. -/
def COMPANY_COL : Nat := 1

/-- `WEBSITE_COL` (column G) from `enrich`. -/
def WEBSITE_COL : Nat := 6

/-- The Brave-search arm of the `enrich` row body (the
`if BRAVE_API_KEY and counter < limit / elif / else` chain). -/
def braveStep (brave : String → List String)
    (exact_domains contains_patterns : List String) (braveKey : Bool)
    (st : EnrichState) (i : Nat) (company : String) : EnrichState :=
  if braveKey && decide (st.counterCount < SEARCH_DAILY_LIMIT) then
    let wc := search_company_website brave company exact_domains contains_patterns
      st.counterCount
    let st2 := { st with counterCount := wc.2 }
    if wc.1 ≠ "" then
      { st2 with updates := st2.updates ++ [(i, wc.1)],
                 stats := { st2.stats with brave_found := st2.stats.brave_found + 1 } }
    else
      { st2 with stats := { st2.stats with no_match := st2.stats.no_match + 1 } }
  else if braveKey then
    { st with stats := { st.stats with limit_skipped := st.stats.limit_skipped + 1 } }
  else
    { st with stats := { st.stats with no_match := st.stats.no_match + 1 } }

/-- One iteration of the `enrich` row loop (src/enrich_companies.py lines
426-472) for the row at index `i`: rows with an empty company are skipped
with no counter touched; a blacklisted stored website is cleared with a
`""` cell update; a populated non-placeholder cell short-circuits as
`already_has`; otherwise the enrichment lookup and then Brave search are
tried. -/
def processRow (enrichment_lookup : List (String × String))
    (exact_domains contains_patterns : List String)
    (braveKey : Bool) (brave : String → List String)
    (st : EnrichState) (i : Nat) (row : List String) : EnrichState :=
  let company := pyStrip (row.getD COMPANY_COL "")
  let current_website := pyStrip (row.getD WEBSITE_COL "")
  if company = "" then st
  else
    let cleared := current_website != "" &&
      is_blacklisted current_website exact_domains contains_patterns
    let st1 := if cleared then { st with updates := st.updates ++ [(i, "")] } else st
    let current_website := if cleared then "" else current_website
    if current_website ≠ "" ∧
        pyLower current_website ∉ (["", "n/a", "none"] : List String) then
      { st1 with stats := { st1.stats with already_has := st1.stats.already_has + 1 } }
    else
      let norm_name := normalize_company_name company
      if dictContains enrichment_lookup norm_name then
        let website := (dictLookup enrichment_lookup norm_name).getD ""
        if !is_blacklisted website exact_domains contains_patterns then
          { st1 with updates := st1.updates ++ [(i, website)],
                     stats := { st1.stats with matched := st1.stats.matched + 1 } }
        else braveStep brave exact_domains contains_patterns braveKey st1 i company
      else braveStep brave exact_domains contains_patterns braveKey st1 i company

/-- The whole `enrich` row loop over the data rows (`scraper_rows[1:]`),
starting from the loaded Brave counter and empty updates and counters. -/
def enrichRun (enrichment_lookup : List (String × String))
    (exact_domains contains_patterns : List String)
    (braveKey : Bool) (brave : String → List String)
    (st0 : EnrichState) (data_rows : List (List String)) : EnrichState :=
  data_rows.enum.foldl (fun st ir =>
    processRow enrichment_lookup exact_domains contains_patterns braveKey brave
      st ir.1 ir.2) st0

/-- The characterization of one enrichment-tab row's contribution to the
lookup: `some (normalized name, website)` exactly when `enrichRowStep`
appends an entry, `none` when the row is skipped. -/
def rowContrib (name_col website_col : Nat) (row : List String) :
    Option (String × String) :=
  if row.length ≤ max name_col website_col then none
  else
    let name := if name_col < row.length then pyStrip (row.getD name_col "") else ""
    let website := if website_col < row.length then pyStrip (row.getD website_col "") else ""
    if name ≠ "" ∧ website ≠ "" ∧
        pyLower website ∉ (["", "no url", "n/a", "none"] : List String) then
      if extract_domain website ∈ JUNK_DOMAINS then none
      else
        let norm := normalize_company_name name
        if norm ≠ "" then some (norm, website) else none
    else none

end enrich_companies

namespace enrich_company_info

/-- `WEEKLY_LIMIT` from src/enrich_company_info.py. -/
def WEEKLY_LIMIT : Nat := 50

/-- `COL_COMPANY` (column B). -/
def COL_COMPANY : Nat := 1

/-- `COL_CONTACT` (column C). -/
def COL_CONTACT : Nat := 2

/-- `COL_WEBSITE` (column G). -/
def COL_WEBSITE : Nat := 6

/-- `COL_INFO` (column O). -/
def COL_INFO : Nat := 14

/-- `load_counter`: the persisted `{week, count}` pair is honoured only when
its week equals the current ISO week key; otherwise `(current week, 0)`. -/
def load_counter (persisted : Option (String × Nat)) (week_key : String) :
    String × Nat :=
  match persisted with
  | some (w, c) => if w = week_key then (w, c) else (week_key, 0)
  | none => (week_key, 0)

/-- `extract_domain` from src/enrich_company_info.py (with its empty-URL
guard). -/
def extract_domain (url : String) : String :=
  if url = "" then "" else urlNetloc url

/-- `PREFERRED_TITLES` from src/enrich_company_info.py. -/
def PREFERRED_TITLES : List String :=
  ["Safety Manager", "Safety Director", "HSE Manager", "EHS Manager",
   "Director of Safety", "VP of Safety", "Health and Safety",
   "Environmental Health and Safety", "Safety Coordinator",
   "Safety Officer", "Safety Specialist", "Safety Superintendent",
   "Risk Manager", "Loss Prevention",
   "Project Manager", "Construction Manager", "Operations Manager",
   "Superintendent", "General Manager",
   "Vice President", "President", "CEO", "Owner"]

/-- An Apollo organization record, restricted to the field that drives the
enrichment control flow. -/
structure Org where
  primary_domain : String
deriving DecidableEq, Repr

/-- An Apollo person record, restricted to the fields that drive the
enrichment control flow (`id`, `title` and the attached organization). -/
structure Person where
  id : String
  title : String
  organization : Option Org
deriving DecidableEq, Repr

/-- The title-priority score used by `pick_best_person`: the index of the
first preferred title contained in the (lowercased) title, or the worst
score `len(PREFERRED_TITLES) + 1`. -/
def titleScore (title : String) : Nat :=
  ((PREFERRED_TITLES.enum.find? (fun p => hasSubstring (pyLower p.2) title)).map
    Prod.fst).getD (PREFERRED_TITLES.length + 1)

/-- `pick_best_person` from src/enrich_company_info.py: score the people
with a title, take the stably-sorted best; with no titled people fall back to
the first person with a title, then to the first person. -/
def pick_best_person (people : List Person) : Option Person :=
  match people with
  | [] => none
  | _ =>
    let scored := people.foldl (fun sc p =>
      let title := pyLower p.title
      if title = "" then sc else sc ++ [(titleScore title, p)]) ([] : List (Nat × Person))
    match scored with
    | [] =>
      match people.find? (fun p => p.title != "") with
      | some p => some p
      | none => people.head?
    | q :: qs =>
      some ((qs.foldl (fun best r => if r.1 < best.1 then r else best) q).2)

/-- One work item of the enrichment loop (the dict pushed onto
`need_enrichment`). -/
structure NeedItem where
  row : Nat
  company : String
  website : String
  has_website : Bool
  has_contact : Bool
  has_info : Bool
deriving DecidableEq, Repr

/-- One iteration of the classification loop of `enrich`
(src/enrich_company_info.py lines 362-395): empty-company rows are skipped
silently with no counter touched, complete rows bump the `complete` counter,
the rest join the work list.  (The `email` and `title` cells are read by the
source but do not influence the classification.) -/
def classifyStep (first_run : Bool) (acc : List NeedItem × Nat)
    (ir : Nat × List String) : List NeedItem × Nat :=
  let i := ir.1
  let row := ir.2
  let company := pyStrip (row.getD COL_COMPANY "")
  if company = "" then acc
  else
    let website := pyStrip (row.getD COL_WEBSITE "")
    let contact := pyStrip (row.getD COL_CONTACT "")
    let info := pyStrip (row.getD COL_INFO "")
    let has_website := website != "" &&
      decide (pyLower website ∉ (["", "n/a", "none"] : List String))
    let has_contact := contact != ""
    let has_info := info != ""
    let item : NeedItem :=
      ⟨i, company, if has_website then website else "", has_website, has_contact, has_info⟩
    if first_run then
      if has_website && has_contact && has_info then (acc.1, acc.2 + 1)
      else (acc.1 ++ [item], acc.2)
    else
      if has_info || has_contact then (acc.1, acc.2 + 1)
      else (acc.1 ++ [item], acc.2)

/-- The classification of all data rows, `enumerate(rows[1:], start=2)`. -/
def need_enrichment (first_run : Bool) (rows : List (List String)) :
    List NeedItem × Nat :=
  (rows.tail.enum.map (fun p => (p.1 + 2, p.2))).foldl (classifyStep first_run) ([], 0)

/-- The Apollo API endpoints as response oracles: `search_people`,
`match_person`, `enrich_org_by_domain` and `search_org_by_name`, each of
which costs one API request per invocation. -/
structure ApolloApis where
  people_search : String → List Person
  person_match : String → Option Person
  org_enrich : String → Option Org
  org_search : String → Option Org

/-- The number of Apollo API requests issued for one work item, following
the per-company loop of `enrich` (src/enrich_company_info.py lines 414-452):
a missing contact costs a people search and possibly a person match; a
missing org afterwards costs a domain enrichment, or an org search possibly
followed by a domain enrichment. -/
def apolloCallsForItem (apis : ApolloApis) (item : NeedItem) : Nat :=
  let domain := if item.website ≠ "" then extract_domain item.website else ""
  let step1 : Option Org × Nat :=
    if !item.has_contact then
      match apis.people_search item.company with
      | [] => (none, 1)
      | people =>
        match pick_best_person people with
        | some best =>
          if best.id ≠ "" then
            match apis.person_match best.id with
            | some person => (person.organization, 2)
            | none => (none, 2)
          else (none, 1)
        | none => (none, 1)
    else (none, 0)
  let calls2 : Nat :=
    if step1.1.isNone && !item.has_info then
      if domain ≠ "" then 1
      else
        match apis.org_search item.company with
        | some found => if found.primary_domain ≠ "" then 2 else 1
        | none => 1
    else 0
  step1.2 + calls2

/-- The budget-relevant outcome of one `enrich` run. -/
structure ApolloPlan where
  processed : Nat
  api_calls : Nat
  saved_count : Option Nat
deriving DecidableEq, Repr

/-- The budget behaviour of `enrich`: the weekly gate (bypassed by
`first_run`), the truncation of the work list to the remaining weekly
budget, the total Apollo request count over the processed items, and the
counter persisted at the end (`none` when the run returns early without
saving). -/
def enrich_plan (first_run : Bool) (persisted : Option (String × Nat))
    (week_key : String) (apis : ApolloApis) (rows : List (List String)) :
    ApolloPlan :=
  let week_count := (load_counter persisted week_key).2
  if !first_run && decide (WEEKLY_LIMIT ≤ week_count) then ⟨0, 0, none⟩
  else if rows.length < 2 then ⟨0, 0, none⟩
  else
    let need := (need_enrichment first_run rows).1
    if need = [] then ⟨0, 0, none⟩
    else
      let need := if first_run then need else need.take (WEEKLY_LIMIT - week_count)
      let processed := need.length
      let calls := (need.map (apolloCallsForItem apis)).sum
      ⟨processed, calls, some (week_count + processed)⟩

end enrich_company_info

/-- An Apollo oracle that returns empty results for every request, used in
concrete runs. -/
def apolloNoResultApis : enrich_company_info.ApolloApis :=
  ⟨fun _ => [], fun _ => none, fun _ => none, fun _ => none⟩

namespace iowa_contractors

/-- A sample contractor record used in concrete counterexamples. -/
def sampleRec : Rec :=
  ⟨"Iowa", "Acme Electric", "Jo Doe", "(515) 555-0100", "jo@acme.example",
   "1 Main St, Des Moines, IA 50301", "", "", "", "", "2026-01-02", "",
   "Registered contractor - Electrical", "Electrical (NAICS 238210)"⟩

end iowa_contractors

namespace import_usaspending

/-- A sample mapped award row (14 cells, as `map_to_row` produces) used in
concrete witnesses. -/
def sampleRow : List String :=
  ["TX", "Fisher Sand & Gravel Co", "", "", "", "", "",
   "W9126G26C0001", "$1,250,000.00", "$0.00", "2026-02-01",
   "https://www.usaspending.gov/award/CONT_AWD_1", "Runway repair",
   "Highway/Street/Bridge (NAICS 237310)"]

end import_usaspending

/-- Split a character list at every occurrence of a separator character
(Python `str.split(sep)` semantics: empty segments are kept). -/
def splitOnChar (c : Char) : List Char → List (List Char)
  | [] => [[]]
  | a :: rest =>
    let r := splitOnChar c rest
    if a = c then [] :: r
    else
      match r with
      | h :: t => (a :: h) :: t
      | [] => [[a]]

namespace austin_contracts

/-- `MIN_AMOUNT` from src/austin_contracts.py. -/
def MIN_AMOUNT : ℚ := 50000

/-- A calendar date as `datetime.strptime` validates it. -/
structure PyDate where
  year : Nat
  month : Nat
  day : Nat
deriving DecidableEq, Repr

/-- `MIN_DATE`: `datetime(2025, 12, 1)`. -/
def MIN_DATE : PyDate := ⟨2025, 12, 1⟩

/-- Gregorian leap-year rule, as `datetime` uses. -/
def isLeapYear (y : Nat) : Bool :=
  (y % 4 = 0 && y % 100 ≠ 0) || y % 400 = 0

/-- Days in a month, as `datetime` validates the day. -/
def daysInMonth (y m : Nat) : Nat :=
  if m = 2 then (if isLeapYear y then 29 else 28)
  else if m ∈ [4, 6, 9, 11] then 30
  else 31

/-- `datetime` comparison (lexicographic on year, month, day). -/
def PyDate.lt (a b : PyDate) : Bool :=
  decide (a.year < b.year) ||
    (decide (a.year = b.year) && (decide (a.month < b.month) ||
      (decide (a.month = b.month) && decide (a.day < b.day))))

/-- `parse_date` from src/austin_contracts.py:
`datetime.strptime(s, "%m/%d/%Y")` with `ValueError` as `None` — month and
day take one or two digits, the year exactly four, and the date must be a
valid calendar date. -/
def parse_date (date_str : String) : Option PyDate :=
  if date_str = "" then none
  else
    match splitOnChar '/' date_str.data with
    | [ms, ds, ys] =>
      if ms ≠ [] ∧ ms.length ≤ 2 ∧ ms.all Char.isDigit ∧
          ds ≠ [] ∧ ds.length ≤ 2 ∧ ds.all Char.isDigit ∧
          ys.length = 4 ∧ ys.all Char.isDigit then
        let m := digitsVal ms
        let d := digitsVal ds
        let y := digitsVal ys
        if 1 ≤ m ∧ m ≤ 12 ∧ 1 ≤ d ∧ d ≤ daysInMonth y m ∧ 1 ≤ y then
          some ⟨y, m, d⟩
        else none
      else none
    | _ => none

/-- `NAICS_FILTERS` from src/austin_contracts.py. -/
def NAICS_FILTERS : List (String × String × List String) :=
  [("238210", "Electrical",
    ["electrical", "electric", "lighting", "wiring"]),
   ("236220", "Commercial Building",
    ["building construction", "commercial", "institutional",
     "fire station", "ems station", "library", "convention center",
     "facility", "facilities", "renovation", "remodel", "tenant improvement",
     "general construction", "construction services, general"]),
   ("237310", "Highway/Street/Bridge",
    ["highway", "street", "road", "bridge", "intersection",
     "sidewalk", "pavement", "asphalt", "roundabout", "traffic signal",
     "parking lot"]),
   ("238220", "Plumbing/HVAC",
    ["plumbing", "hvac", "mechanical", "heating", "cooling",
     "air conditioning", "chilled water", "boiler"]),
   ("238120", "Structural Steel",
    ["structural steel", "steel erection", "steel fabricat",
     "iron work", "metal building"])]

/-- `match_naics`: the first filter one of whose keywords occurs in the
lowercased text, scanning filters and keywords in order. -/
def match_naics (text : String) : Option (String × String) :=
  let lower := pyLower text
  NAICS_FILTERS.findSome? (fun f =>
    if f.2.2.any (fun kw => hasSubstring kw lower) then some (f.1, f.2.1) else none)

/-- Python `str.title()` over the ASCII data handled here: a letter is
uppercased after a non-letter and lowercased after a letter. -/
def pyTitleGo : Bool → List Char → List Char
  | _, [] => []
  | prevAlpha, a :: cs =>
    (if a.isAlpha then (if prevAlpha then a.toLower else a.toUpper) else a) ::
      pyTitleGo a.isAlpha cs

/-- Python `str.title()`. -/
def pyTitle (s : String) : String := String.mk (pyTitleGo false s.data)

/-- `enhance_description` from src/austin_contracts.py (the separator between
name and commodity is the mojibake byte sequence literally present in the
source file). -/
def enhance_description (contract_name commodity_desc : String) : String :=
  let name := pyTitle (pyStrip contract_name)
  let commodity := pyStrip commodity_desc
  if commodity ≠ "" ∧ pyUpper commodity ≠ pyUpper contract_name then
    name ++ " â€” " ++ commodity
  else name

/-- One contract link scraped from the list page. -/
structure ListContract where
  detail_url : String
  cd : String
  dd : String
  contract_id : String
  link_text : String
  list_description : String
deriving DecidableEq, Repr

/-- The fields `parse_detail_page` extracts from one detail page. -/
structure Detail where
  vendor : String
  vendor_code : String
  commodity_desc : String
  commodity_code : String
  begin_date_str : String
  amount_str : String
  amount_expended_str : String
deriving DecidableEq, Repr

/-- The vendor contact block `parse_vendor_page` extracts. -/
structure VendorInfo where
  contact_name : String
  address : String
  phone : String
  email : String
  website : String
deriving DecidableEq, Repr

/-- The empty vendor info used when there is no vendor code or the vendor
page fetch fails. -/
def emptyVendorInfo : VendorInfo := ⟨"", "", "", "", ""⟩

/-- One normalized output record of `scrape_all`. -/
structure ResultRec where
  company_name : String
  contract_name : String
  award_amount : ℚ
  amount_expended : ℚ
  begin_date : String
  award_link : String
  description : String
  commodity_type : String
  contact_name : String
  address : String
  phone : String
  email : String
  website : String
  city : String
deriving DecidableEq, Repr

/-- The decimal digit character of `n % 10`. -/
def digitChar (n : Nat) : Char := Char.ofNat (48 + n % 10)

/-- Two-digit zero-padded rendering (`%m`, `%d`). -/
def pad2 (n : Nat) : String := String.mk [digitChar (n / 10), digitChar n]

/-- Four-digit zero-padded rendering (`%Y`). -/
def pad4 (n : Nat) : String :=
  String.mk [digitChar (n / 1000), digitChar (n / 100), digitChar (n / 10), digitChar n]

/-- `strftime("%Y-%m-%d")`. -/
def fmtDate (d : PyDate) : String :=
  pad4 d.year ++ "-" ++ pad2 d.month ++ "-" ++ pad2 d.day

/-- The mutable state of the `scrape_all` loop. -/
structure ScrapeState where
  results : List ResultRec
  seen : List (String × String)
  skipped_naics : Nat
  skipped_date : Nat
  skipped_amount : Nat
  skipped_not_expended : Nat
  errors : Nat
deriving DecidableEq, Repr

/-- One iteration of the `scrape_all` loop (src/austin_contracts.py lines
252-329).  The detail and vendor pages are fetched through the oracles
`detailOf` and `vendorOf` (`none` models a fetch exception); since the
oracles are pure, the per-run `vendor_cache` is behaviourally transparent
and is not modelled separately. -/
def processContract (detailOf : String → Option Detail)
    (vendorOf : String → Option VendorInfo) (st : ScrapeState)
    (c : ListContract) : ScrapeState :=
  let quick_text := c.list_description ++ " " ++ c.link_text
  match match_naics quick_text with
  | none => { st with skipped_naics := st.skipped_naics + 1 }
  | some _ =>
    match detailOf c.detail_url with
    | none => { st with errors := st.errors + 1 }
    | some detail =>
      let full_text := c.list_description ++ " " ++ detail.commodity_desc
      match match_naics full_text with
      | none => { st with skipped_naics := st.skipped_naics + 1 }
      | some nl =>
        match parse_date detail.begin_date_str with
        | none => { st with skipped_date := st.skipped_date + 1 }
        | some begin_date =>
          if PyDate.lt begin_date MIN_DATE then
            { st with skipped_date := st.skipped_date + 1 }
          else
            let amount := parse_amount detail.amount_str
            if amount < MIN_AMOUNT then
              { st with skipped_amount := st.skipped_amount + 1 }
            else
              let amount_expended := parse_amount detail.amount_expended_str
              if amount_expended ≤ 0 then
                { st with skipped_not_expended := st.skipped_not_expended + 1 }
              else
                let vendor_name := if detail.vendor = "" then "Unknown" else detail.vendor
                let dedup_key := (c.contract_id, vendor_name)
                if dedup_key ∈ st.seen then st
                else
                  let vendor_info :=
                    if detail.vendor_code = "" then emptyVendorInfo
                    else (vendorOf detail.vendor_code).getD emptyVendorInfo
                  { st with
                    seen := st.seen ++ [dedup_key],
                    results := st.results ++
                      [{ company_name := vendor_name,
                         contract_name := c.list_description,
                         award_amount := amount,
                         amount_expended := amount_expended,
                         begin_date := fmtDate begin_date,
                         award_link := c.detail_url,
                         description := enhance_description c.list_description
                           detail.commodity_desc,
                         commodity_type := nl.2 ++ " (NAICS " ++ nl.1 ++ ")",
                         contact_name := vendor_info.contact_name,
                         address := vendor_info.address,
                         phone := vendor_info.phone,
                         email := vendor_info.email,
                         website := vendor_info.website,
                         city := "Austin" }] }

/-- The filter/dedup pipeline of `scrape_all` over the parsed list-page
contracts. -/
def scrape_all (contracts : List ListContract)
    (detailOf : String → Option Detail)
    (vendorOf : String → Option VendorInfo) : ScrapeState :=
  contracts.foldl (processContract detailOf vendorOf) ⟨[], [], 0, 0, 0, 0, 0⟩

/-- A concrete electrical contract link used in witnesses. -/
def sampleContract1 : ListContract :=
  ⟨"u1", "cd", "dd", "MA100", "Electrical Services", "Electrical maintenance"⟩

/-- A second link sharing the same contract id. -/
def sampleContract2 : ListContract :=
  ⟨"u2", "cd", "dd", "MA100", "Electrical Services", "Electrical maintenance"⟩

/-- A vendor-less detail page passing every filter. -/
def sampleDetail : Detail :=
  ⟨"", "", "electrical work", "39000", "12/1/2025", "50,000", "1"⟩

end austin_contracts

/- ### C9: totality and zero-vs-parsed behaviour of `parse_amount` -/

/-- C9 (counterexample): the claim says `parse_amount` returns `0` exactly on
inputs that are empty or unparseable after removing `$` and `,`.  Austin's
copy removes only commas, so on the nonempty input `"$100"` — which parses as
`100` once `$` and `,` are removed — it still returns `0`. -/
theorem C9_austin_dollar_counterexample :
    austin_contracts.parse_amount "$100" = 0 ∧
    pyFloatQ (removeChar ',' (removeChar '$' "$100")) = some 100 ∧ (100 : ℚ) ≠ 0 := by
  refine ⟨?_, ?_, by norm_num⟩
  · have h : pyFloatParse (removeChar ',' "$100") = none := by decide
    simp [austin_contracts.parse_amount, h]
  · have h : pyFloatParse (removeChar ',' (removeChar '$' "$100")) = some ⟨false, 100, 0, 0⟩ := by
      decide
    simp [pyFloatQ, h, PyNum.val]

/-- C9 (amended): both copies of `parse_amount` are total; the
import_usaspending copy returns exactly the value parsed after removing `$`
and `,` (and `0` when that fails or the input is empty), while the Austin
copy removes only commas, so it agrees with the former on every input that
contains no `$`. -/
theorem C9_parse_amount_amended :
    (∀ s : String,
        import_usaspending.parse_amount s =
          (pyFloatQ (removeChar ',' (removeChar '$' s))).getD 0) ∧
    (∀ s : String, '$' ∉ s.data →
        austin_contracts.parse_amount s = import_usaspending.parse_amount s) := by
  constructor
  · intro s
    by_cases hs : s = ""
    · subst hs
      have h : pyFloatParse (removeChar ',' (removeChar '$' "")) = none := by decide
      simp [import_usaspending.parse_amount, pyFloatQ, h]
    · simp only [import_usaspending.parse_amount, pyFloatQ, hs, if_false]
      cases pyFloatParse (removeChar ',' (removeChar '$' s)) <;> simp
  · intro s hdollar
    have hid : removeChar '$' s = s := by
      unfold removeChar
      rw [List.filter_eq_self.mpr]
      intro a ha
      simp only [bne_iff_ne, ne_eq]
      exact fun h => hdollar (h ▸ ha)
    unfold austin_contracts.parse_amount import_usaspending.parse_amount
    rw [hid]

/-- Witness for the amended C9 on a concrete dollar-free input. -/
theorem C9_parse_amount_amended_witness :
    ('$' ∉ ("1,050.5").data) ∧
    austin_contracts.parse_amount "1,050.5" = import_usaspending.parse_amount "1,050.5" :=
  ⟨by decide, C9_parse_amount_amended.2 "1,050.5" (by decide)⟩

/- ### Reconciliation lemmas for the sheet writers -/

namespace import_usaspending

lemma foldl_split_step (dd : List (String × String × String)) :
    ∀ (rows : List (List String)) (acc : List (List String) × Nat),
      (rows.foldl (split_step dd) acc).1 =
        acc.1 ++ rows.filter (fun row => decide (rowKey row ∉ dd)) := by
  intro rows
  induction rows with
  | nil => intro acc; simp
  | cons r rs ih =>
    intro acc
    by_cases h : rowKey r ∈ dd
    · simp [List.foldl_cons, split_step, h, ih]
    · simp [List.foldl_cons, split_step, h, ih]

lemma split_new_rows_fst (rows : List (List String))
    (dd : List (String × String × String)) :
    (split_new_rows rows dd).1 = rows.filter (fun row => decide (rowKey row ∉ dd)) := by
  simp [split_new_rows, foldl_split_step]

end import_usaspending

namespace sf_contracts

lemma recKey_recRow (r : Rec) :
    (pyLower (pyStrip (getCell (recRow r) 1)), pyLower (pyStrip (getCell (recRow r) 7))) =
      recKey r := rfl

lemma mem_existing_fps_of_mem_tail {row : List String} {store : List (List String)}
    (hmem : row ∈ store.tail) (hlen : 7 < row.length) (hstore : 1 < store.length) :
    (pyLower (pyStrip (getCell row 1)), pyLower (pyStrip (getCell row 7))) ∈
      existing_fps store := by
  unfold existing_fps
  rw [if_pos hstore]
  exact List.mem_map_of_mem _ (List.mem_filter.mpr ⟨hmem, by simpa using hlen⟩)

lemma recKey_mem_fps_store_after (results : List Rec) (existing : List (List String))
    {r : Rec} (hr : r ∈ results) :
    recKey r ∈ existing_fps (store_after results existing) := by
  by_cases hk : recKey r ∈ existing_fps existing
  · have hlen : 1 < existing.length := by
      by_contra hlen
      unfold existing_fps at hk
      rw [if_neg hlen] at hk
      simp at hk
    have hne : existing.isEmpty = false := by
      cases existing with
      | nil => simp at hlen
      | cons a t => rfl
    have hsa : store_after results existing = existing ++ (append_plan results existing).rows := by
      unfold store_after
      rw [hne]
      simp
    rw [hsa]
    unfold existing_fps at hk ⊢
    rw [if_pos hlen] at hk
    have hlen2 : 1 < (existing ++ (append_plan results existing).rows).length := by
      rw [List.length_append]; omega
    rw [if_pos hlen2]
    have htail : (existing ++ (append_plan results existing).rows).tail =
        existing.tail ++ (append_plan results existing).rows := by
      cases existing with
      | nil => simp at hlen
      | cons a t => simp
    rw [htail, List.filter_append, List.map_append]
    exact List.mem_append_left _ hk
  · have hmem : r ∈ new_results results existing :=
      List.mem_filter.mpr ⟨hr, by simpa using hk⟩
    have hrow : recRow r ∈ (append_plan results existing).rows :=
      List.mem_map_of_mem _ hmem
    have hpre : (if existing.isEmpty then [SHEET_HEADERS] else existing) ≠ [] := by
      by_cases he : existing.isEmpty
      · simp [he]
      · simp [he]
        intro hnil
        rw [hnil] at he
        simp at he
    have htail : (store_after results existing).tail =
        (if existing.isEmpty then [SHEET_HEADERS] else existing).tail ++
          (append_plan results existing).rows := by
      unfold store_after
      cases h : (if existing.isEmpty then [SHEET_HEADERS] else existing) with
      | nil => exact absurd h hpre
      | cons a t => simp
    have hstore : 1 < (store_after results existing).length := by
      unfold store_after
      rw [List.length_append]
      have h1 : 0 < (if existing.isEmpty then [SHEET_HEADERS] else existing).length := by
        cases h : (if existing.isEmpty then [SHEET_HEADERS] else existing) with
        | nil => exact absurd h hpre
        | cons a t => simp
      have h2 : 0 < (append_plan results existing).rows.length := List.length_pos.mpr (by
        intro hnil
        rw [hnil] at hrow
        simp at hrow)
      omega
    have := @mem_existing_fps_of_mem_tail (recRow r) (store_after results existing)
      (by rw [htail]; exact List.mem_append_right _ hrow) (by simp [recRow]) hstore
    rwa [recKey_recRow] at this

lemma second_run_rows_nil (results : List Rec) (existing : List (List String)) :
    (append_plan results (store_after results existing)).rows = [] := by
  have h : new_results results (store_after results existing) = [] := by
    unfold new_results
    rw [List.filter_eq_nil_iff]
    intro r hr
    simp only [decide_eq_true_eq, Decidable.not_not]
    exact recKey_mem_fps_store_after results existing hr
  simp [append_plan, h]

end sf_contracts

/- ### C2: idempotence of the reconcile-and-write step -/

/-- C2 (counterexample): iowa's `write_to_google_sheets` performs no
reconciliation: after a first run on an empty store, the store holds exactly
the header plus the written row, yet a second run with the same results
appends the very same row again — not zero new rows. -/
theorem C2_iowa_second_run_appends_again :
    iowa_contractors.store_after [iowa_contractors.sampleRec] [] =
      [iowa_contractors.SHEET_HEADERS, iowa_contractors.recRow iowa_contractors.sampleRec] ∧
    (iowa_contractors.append_plan [iowa_contractors.sampleRec]
        (iowa_contractors.store_after [iowa_contractors.sampleRec] [])).rows =
      [iowa_contractors.recRow iowa_contractors.sampleRec] ∧
    (iowa_contractors.append_plan [iowa_contractors.sampleRec]
        (iowa_contractors.store_after [iowa_contractors.sampleRec] [])).rows ≠ [] := by
  refine ⟨rfl, rfl, ?_⟩
  simp [iowa_contractors.append_plan]

/-- C2 (amended): only sf's writer reconciles against the snapshot: a second
sf run against the store produced by the first appends nothing, while iowa's
and txsmartbuy's writers append every incoming row unconditionally on every
run. -/
theorem C2_amended_idempotence :
    (∀ (results : List sf_contracts.Rec) (existing : List (List String)),
      (sf_contracts.append_plan results (sf_contracts.store_after results existing)).rows = []) ∧
    (∀ (results : List iowa_contractors.Rec) (existing : List (List String)),
      (iowa_contractors.append_plan results existing).rows =
        results.map iowa_contractors.recRow) ∧
    (∀ (results : List txsmartbuy_contracts.Rec) (existing : List (List String)),
      (txsmartbuy_contracts.append_plan results existing).rows =
        results.map txsmartbuy_contracts.recRow) :=
  ⟨fun results existing => sf_contracts.second_run_rows_nil results existing,
   fun _ _ => rfl, fun _ _ => rfl⟩

/- ### C3: the append list is the order-preserving filter of the incoming batch -/

/-- C3: in both deduplicating writers (sf's `write_to_google_sheets` and
import_usaspending's `main` loop), the append list is exactly the records
whose identity key is absent from the snapshot index: a sublist of the input
(stable order, no re-sorting), membership iff the key is absent, and each
qualifying occurrence kept with its input multiplicity. -/
theorem C3_append_list_filter :
    (∀ (results : List sf_contracts.Rec) (existing : List (List String)),
      (sf_contracts.new_results results existing).Sublist results ∧
      (∀ r, r ∈ sf_contracts.new_results results existing ↔
        r ∈ results ∧ sf_contracts.recKey r ∉ sf_contracts.existing_fps existing) ∧
      (∀ r, sf_contracts.recKey r ∉ sf_contracts.existing_fps existing →
        (sf_contracts.new_results results existing).count r = results.count r)) ∧
    (∀ (mapped_rows : List (List String)) (dedup : List (String × String × String)),
      ((import_usaspending.split_new_rows mapped_rows dedup).1).Sublist mapped_rows ∧
      (∀ row, row ∈ (import_usaspending.split_new_rows mapped_rows dedup).1 ↔
        row ∈ mapped_rows ∧ import_usaspending.rowKey row ∉ dedup) ∧
      (∀ row, import_usaspending.rowKey row ∉ dedup →
        ((import_usaspending.split_new_rows mapped_rows dedup).1).count row =
          mapped_rows.count row)) := by
  constructor
  · intro results existing
    refine ⟨List.filter_sublist results, ?_, ?_⟩
    · intro r
      unfold sf_contracts.new_results
      rw [List.mem_filter]
      simp
    · intro r hk
      exact List.count_filter (by simpa using hk)
  · intro mapped_rows dedup
    rw [import_usaspending.split_new_rows_fst]
    refine ⟨List.filter_sublist mapped_rows, ?_, ?_⟩
    · intro row
      rw [List.mem_filter]
      simp
    · intro row hk
      exact List.count_filter (by simpa using hk)

/-- Witness for C3 on concrete data: a single fresh mapped row against an
empty dedup set is kept with multiplicity one. -/
theorem C3_append_list_filter_witness :
    import_usaspending.rowKey import_usaspending.sampleRow ∉
      ([] : List (String × String × String)) ∧
    ((import_usaspending.split_new_rows [import_usaspending.sampleRow] []).1).count
        import_usaspending.sampleRow = [import_usaspending.sampleRow].count
        import_usaspending.sampleRow :=
  ⟨by decide, (C3_append_list_filter.2 [import_usaspending.sampleRow] []).2.2
    import_usaspending.sampleRow (by decide)⟩

/- ### C4: snapshot read failure is fail-open -/

/-- C4: a failed snapshot read returns the empty row list instead of raising
(in sf, tn_tdot and iowa alike), and sf's append plan over that empty
snapshot rewrites the header row and appends every incoming record. -/
theorem C4_read_failure_fail_open (e : String) (results : List sf_contracts.Rec) :
    sf_contracts.get_existing_data (.error e) = [] ∧
    iowa_contractors.get_existing_data (.error e) = [] ∧
    tn_tdot_contracts.get_existing_data (.error e) = [] ∧
    sf_contracts.append_plan results (sf_contracts.get_existing_data (.error e)) =
      { header_written := true, rows := results.map sf_contracts.recRow, start_row := 2 } := by
  refine ⟨rfl, rfl, rfl, ?_⟩
  have h : sf_contracts.new_results results [] = results := by
    unfold sf_contracts.new_results
    rw [List.filter_eq_self]
    intro r hr
    simp [sf_contracts.existing_fps]
  simp [sf_contracts.append_plan, sf_contracts.get_existing_data, h]

/- ### Enrichment lemmas and the enrichment claims -/

namespace enrich_companies

lemma enrichRowStep_contrib (nc wc : Nat) (lookup : List (String × String))
    (row : List String) :
    enrichRowStep nc wc lookup row =
      (match rowContrib nc wc row with
       | some p => lookup ++ [p]
       | none => lookup) := by
  unfold enrichRowStep rowContrib
  by_cases hlen : row.length ≤ max nc wc
  · simp only [if_pos hlen]
  · simp only [if_neg hlen]
    have hnc : nc < row.length := lt_of_le_of_lt (le_max_left nc wc) (lt_of_not_le hlen)
    have hwc : wc < row.length := lt_of_le_of_lt (le_max_right nc wc) (lt_of_not_le hlen)
    simp only [if_pos hnc, if_pos hwc]
    by_cases hq : pyStrip (row.getD nc "") ≠ "" ∧ pyStrip (row.getD wc "") ≠ "" ∧
        pyLower (pyStrip (row.getD wc "")) ∉ (["", "no url", "n/a", "none"] : List String)
    · simp only [if_pos hq]
      by_cases hj : extract_domain (pyStrip (row.getD wc "")) ∈ JUNK_DOMAINS
      · simp only [if_pos hj]
      · simp only [if_neg hj]
        by_cases hn : normalize_company_name (pyStrip (row.getD nc "")) ≠ ""
        · simp only [if_pos hn]
        · simp only [if_neg hn]
    · simp only [if_neg hq]

lemma pyLower_empty_iff (s : String) : pyLower s = "" ↔ s = "" := by
  cases s with
  | mk l =>
    unfold pyLower
    constructor
    · intro h
      have hd := congrArg String.data h
      simp at hd
      simp [hd]
    · intro h
      have hd := congrArg String.data h
      simp at hd
      simp [hd]

lemma processRow_populated_clean (L : List (String × String))
    (e c : List String) (bk : Bool) (br : String → List String)
    (st : EnrichState) (i : Nat) (row : List String)
    (hpl : pyLower (pyStrip (row.getD WEBSITE_COL "")) ∉ (["", "n/a", "none"] : List String))
    (hblack : is_blacklisted (pyStrip (row.getD WEBSITE_COL "")) e c = false) :
    processRow L e c bk br st i row =
      (if pyStrip (row.getD COMPANY_COL "") = "" then st
       else { st with stats := { st.stats with already_has := st.stats.already_has + 1 } }) := by
  have hw : pyStrip (row.getD WEBSITE_COL "") ≠ "" := by
    intro h
    exact hpl (by rw [h, (pyLower_empty_iff "").mpr rfl]; simp)
  simp only [processRow]
  set w := pyStrip (row.getD WEBSITE_COL "") with hwdef
  set comp := pyStrip (row.getD COMPANY_COL "") with hcdef
  by_cases hc : comp = ""
  · simp only [if_pos hc]
  · simp only [if_neg hc]
    have hclne : ¬ ((w != "" && is_blacklisted w e c) = true) := by
      rw [hblack]
      simp
    simp only [if_neg hclne]
    rw [if_pos ⟨hw, hpl⟩]

lemma processRow_empty_company (L : List (String × String))
    (e c : List String) (bk : Bool) (br : String → List String)
    (st : EnrichState) (i : Nat) (row : List String)
    (hc : pyStrip (row.getD COMPANY_COL "") = "") :
    processRow L e c bk br st i row = st := by
  simp only [processRow]
  rw [if_pos hc]

set_option maxHeartbeats 1000000 in
lemma processRow_placeholder_match (L : List (String × String))
    (e c : List String) (bk : Bool) (br : String → List String)
    (st : EnrichState) (i : Nat) (row : List String)
    (hc : pyStrip (row.getD COMPANY_COL "") ≠ "")
    (hblack : is_blacklisted (pyStrip (row.getD WEBSITE_COL "")) e c = false)
    (hple : pyStrip (row.getD WEBSITE_COL "") = "" ∨
      pyLower (pyStrip (row.getD WEBSITE_COL "")) ∈ (["n/a", "none"] : List String))
    (hlkp : dictContains L (normalize_company_name (pyStrip (row.getD COMPANY_COL ""))) = true)
    (hwb : is_blacklisted
      ((dictLookup L (normalize_company_name (pyStrip (row.getD COMPANY_COL "")))).getD "")
      e c = false) :
    processRow L e c bk br st i row =
      { st with
        updates := st.updates ++
          [(i, (dictLookup L (normalize_company_name (pyStrip (row.getD COMPANY_COL "")))).getD "")],
        stats := { st.stats with matched := st.stats.matched + 1 } } := by
  simp only [processRow]
  set w := pyStrip (row.getD WEBSITE_COL "") with hwdef
  set comp := pyStrip (row.getD COMPANY_COL "") with hcdef
  simp only [if_neg hc]
  have hclne : ¬ ((w != "" && is_blacklisted w e c) = true) := by
    rw [hblack]
    simp
  simp only [if_neg hclne]
  have hnotalready : ¬ (w ≠ "" ∧ pyLower w ∉ (["", "n/a", "none"] : List String)) := by
    rcases hple with h | h
    · intro hcon
      exact hcon.1 h
    · intro hcon
      apply hcon.2
      simp only [List.mem_cons, List.mem_singleton] at h ⊢
      tauto
  simp only [if_neg hnotalready]
  rw [if_pos hlkp]
  have : (!is_blacklisted ((dictLookup L (normalize_company_name comp)).getD "") e c) = true := by
    rw [hwb]
    rfl
  rw [if_pos this]

set_option maxHeartbeats 1000000 in
lemma processRow_junk_cleared (L : List (String × String))
    (e c : List String) (bk : Bool) (br : String → List String)
    (st : EnrichState) (i : Nat) (row : List String)
    (hc : pyStrip (row.getD COMPANY_COL "") ≠ "")
    (hw : pyStrip (row.getD WEBSITE_COL "") ≠ "")
    (hblack : is_blacklisted (pyStrip (row.getD WEBSITE_COL "")) e c = true) :
    ∃ tl, (processRow L e c bk br st i row).updates = st.updates ++ [(i, "")] ++ tl := by
  simp only [processRow, braveStep, search_company_website]
  set w := pyStrip (row.getD WEBSITE_COL "") with hwdef
  set comp := pyStrip (row.getD COMPANY_COL "") with hcdef
  simp only [if_neg hc]
  have hcl : ((w != "" && is_blacklisted w e c) = true) := by
    rw [hblack]
    simp [hw]
  simp only [if_pos hcl]
  split_ifs <;> simp

lemma braveStep_updates_shape (br : String → List String) (e c : List String)
    (bk : Bool) (st : EnrichState) (i : Nat) (comp : String) :
    ∃ tl, (braveStep br e c bk st i comp).updates = st.updates ++ tl ∧
      ∀ p ∈ tl, p.1 = i := by
  unfold braveStep
  by_cases h1 : (bk && decide (st.counterCount < SEARCH_DAILY_LIMIT)) = true
  · simp only [if_pos h1]
    by_cases h2 : (search_company_website br comp e c st.counterCount).1 ≠ ""
    · refine ⟨[(i, (search_company_website br comp e c st.counterCount).1)], ?_, ?_⟩
      · simp [if_pos h2]
      · intro p hp
        simp at hp
        simp [hp]
    · refine ⟨[], ?_, ?_⟩
      · simp [if_neg h2]
      · intro p hp
        simp at hp
  · simp only [if_neg h1]
    by_cases h2 : bk = true
    · exact ⟨[], by simp [h2], by intro p hp; simp at hp⟩
    · exact ⟨[], by simp [h2], by intro p hp; simp at hp⟩

lemma mem_map_pair {i : Nat} {vs : List String} {p : Nat × String}
    (hp : p ∈ vs.map (fun v => (i, v))) : p.1 = i := by
  rcases List.mem_map.mp hp with ⟨v, _, rfl⟩
  rfl

set_option maxHeartbeats 1000000 in
lemma processRow_updates_shape (L : List (String × String))
    (e c : List String) (bk : Bool) (br : String → List String)
    (st : EnrichState) (i : Nat) (row : List String) :
    ∃ tl, (processRow L e c bk br st i row).updates = st.updates ++ tl ∧
      ∀ p ∈ tl, p.1 = i := by
  have hbrave : ∀ st1 : EnrichState, st1.updates = st.updates ++ [(i, "")] →
      ∃ tl, (braveStep br e c bk st1 i (pyStrip (row.getD COMPANY_COL ""))).updates =
        st.updates ++ tl ∧ ∀ p ∈ tl, p.1 = i := by
    intro st1 h1
    obtain ⟨tl, htl, hmem⟩ := braveStep_updates_shape br e c bk st1 i
      (pyStrip (row.getD COMPANY_COL ""))
    refine ⟨[(i, "")] ++ tl, by rw [htl, h1, List.append_assoc], ?_⟩
    intro p hp
    rcases List.mem_append.mp hp with h | h
    · simp at h
      simp [h]
    · exact hmem p h
  have hbrave0 : ∀ st1 : EnrichState, st1.updates = st.updates →
      ∃ tl, (braveStep br e c bk st1 i (pyStrip (row.getD COMPANY_COL ""))).updates =
        st.updates ++ tl ∧ ∀ p ∈ tl, p.1 = i := by
    intro st1 h1
    obtain ⟨tl, htl, hmem⟩ := braveStep_updates_shape br e c bk st1 i
      (pyStrip (row.getD COMPANY_COL ""))
    exact ⟨tl, by rw [htl, h1], hmem⟩
  simp only [processRow]
  set w := pyStrip (row.getD WEBSITE_COL "") with hwdef
  set comp := pyStrip (row.getD COMPANY_COL "") with hcdef
  by_cases hc : comp = ""
  · simp only [if_pos hc]
    exact ⟨[], by simp, by intro p hp; simp at hp⟩
  · simp only [if_neg hc]
    by_cases hcl : ((w != "" && is_blacklisted w e c) = true)
    · simp only [if_pos hcl]
      have hfalse : ¬ (("" : String) ≠ "" ∧
          pyLower "" ∉ (["", "n/a", "none"] : List String)) := by simp
      simp only [if_neg hfalse]
      by_cases hdc : dictContains L (normalize_company_name comp) = true
      · simp only [if_pos hdc]
        by_cases hbl : (!is_blacklisted
            ((dictLookup L (normalize_company_name comp)).getD "") e c) = true
        · simp only [if_pos hbl]
          refine ⟨[(i, ""), (i, (dictLookup L (normalize_company_name comp)).getD "")],
            by simp, ?_⟩
          intro p hp
          rcases List.mem_cons.mp hp with h | h
          · simp [h]
          · simp at h
            simp [h]
        · simp only [if_neg hbl]
          exact hbrave _ (by simp)
      · simp only [if_neg hdc]
        exact hbrave _ (by simp)
    · simp only [if_neg hcl]
      by_cases ha : (w ≠ "" ∧ pyLower w ∉ (["", "n/a", "none"] : List String))
      · simp only [if_pos ha]
        exact ⟨[], by simp, by intro p hp; simp at hp⟩
      · simp only [if_neg ha]
        by_cases hdc : dictContains L (normalize_company_name comp) = true
        · simp only [if_pos hdc]
          by_cases hbl : (!is_blacklisted
              ((dictLookup L (normalize_company_name comp)).getD "") e c) = true
          · simp only [if_pos hbl]
            refine ⟨[(i, (dictLookup L (normalize_company_name comp)).getD "")], by simp, ?_⟩
            intro p hp
            simp at hp
            simp [hp]
          · simp only [if_neg hbl]
            exact hbrave0 _ (by simp)
        · simp only [if_neg hdc]
          exact hbrave0 _ (by simp)

lemma search_company_website_snd (br : String → List String) (comp : String)
    (e c : List String) (count : Nat) :
    (search_company_website br comp e c count).2 =
      if SEARCH_DAILY_LIMIT ≤ count then count else count + 1 := by
  unfold search_company_website
  by_cases h : SEARCH_DAILY_LIMIT ≤ count
  · simp [h]
  · simp only [if_neg h]
    cases hf : (br (comp ++ " construction company website")).find?
        (fun url => url != "" && !is_blacklisted url e c) with
    | none => simp [hf]
    | some u => simp [hf]

lemma braveStep_count (br : String → List String) (e c : List String)
    (bk : Bool) (st : EnrichState) (i : Nat) (comp : String) :
    st.counterCount ≤ (braveStep br e c bk st i comp).counterCount ∧
    (braveStep br e c bk st i comp).counterCount ≤ max st.counterCount SEARCH_DAILY_LIMIT := by
  unfold braveStep
  by_cases h1 : (bk && decide (st.counterCount < SEARCH_DAILY_LIMIT)) = true
  · have hlt : st.counterCount < SEARCH_DAILY_LIMIT := by
      rcases Bool.and_eq_true_iff.mp h1 with ⟨_, h⟩
      exact of_decide_eq_true h
    simp only [if_pos h1]
    have hsnd := search_company_website_snd br comp e c st.counterCount
    rw [if_neg (not_le.mpr hlt)] at hsnd
    by_cases h2 : (search_company_website br comp e c st.counterCount).1 ≠ ""
    · simp only [if_pos h2]
      constructor
      · simp [hsnd]
      · simp [hsnd]
        omega
    · simp only [if_neg h2]
      constructor
      · simp [hsnd]
      · simp [hsnd]
        omega
  · simp only [if_neg h1]
    by_cases h2 : bk = true
    · simp [h2, le_max_left]
    · simp [h2, le_max_left]

set_option maxHeartbeats 1000000 in
lemma processRow_count (L : List (String × String)) (e c : List String)
    (bk : Bool) (br : String → List String) (st : EnrichState) (i : Nat)
    (row : List String) :
    st.counterCount ≤ (processRow L e c bk br st i row).counterCount ∧
    (processRow L e c bk br st i row).counterCount ≤
      max st.counterCount SEARCH_DAILY_LIMIT := by
  have hbr : ∀ st1 : EnrichState, st1.counterCount = st.counterCount →
      st.counterCount ≤ (braveStep br e c bk st1 i (pyStrip (row.getD COMPANY_COL ""))).counterCount ∧
      (braveStep br e c bk st1 i (pyStrip (row.getD COMPANY_COL ""))).counterCount ≤
        max st.counterCount SEARCH_DAILY_LIMIT := by
    intro st1 h1
    have := braveStep_count br e c bk st1 i (pyStrip (row.getD COMPANY_COL ""))
    rw [h1] at this
    exact this
  simp only [processRow]
  set w := pyStrip (row.getD WEBSITE_COL "") with hwdef
  set comp := pyStrip (row.getD COMPANY_COL "") with hcdef
  by_cases hc : comp = ""
  · simp [if_pos hc, le_max_left]
  · simp only [if_neg hc]
    by_cases hcl : ((w != "" && is_blacklisted w e c) = true)
    · simp only [if_pos hcl]
      have hfalse : ¬ (("" : String) ≠ "" ∧
          pyLower "" ∉ (["", "n/a", "none"] : List String)) := by simp
      simp only [if_neg hfalse]
      by_cases hdc : dictContains L (normalize_company_name comp) = true
      · simp only [if_pos hdc]
        by_cases hbl : (!is_blacklisted
            ((dictLookup L (normalize_company_name comp)).getD "") e c) = true
        · have hbl2 : is_blacklisted
              ((dictLookup L (normalize_company_name comp)).getD "") e c = false := by
            simpa using hbl
          simp [hbl2, le_max_left]
        · simp only [if_neg hbl]
          exact hbr _ rfl
      · simp only [if_neg hdc]
        exact hbr _ rfl
    · simp only [if_neg hcl]
      by_cases ha : (w ≠ "" ∧ pyLower w ∉ (["", "n/a", "none"] : List String))
      · have ha2 : ¬w = "" ∧ ¬pyLower w = "" ∧ ¬pyLower w = "n/a" ∧
            ¬pyLower w = "none" := by simpa [not_or] using ha
        simp [ha2.1, ha2.2.1, ha2.2.2.1, ha2.2.2.2, le_max_left]
      · simp only [if_neg ha]
        by_cases hdc : dictContains L (normalize_company_name comp) = true
        · simp only [if_pos hdc]
          by_cases hbl : (!is_blacklisted
              ((dictLookup L (normalize_company_name comp)).getD "") e c) = true
          · have hbl2 : is_blacklisted
                ((dictLookup L (normalize_company_name comp)).getD "") e c = false := by
              simpa using hbl
            simp [hbl2, le_max_left]
          · simp only [if_neg hbl]
            exact hbr _ rfl
        · simp only [if_neg hdc]
          exact hbr _ rfl

lemma enrichRun_count (L : List (String × String)) (e c : List String)
    (bk : Bool) (br : String → List String) (st0 : EnrichState)
    (data_rows : List (List String)) :
    st0.counterCount ≤ (enrichRun L e c bk br st0 data_rows).counterCount ∧
    (enrichRun L e c bk br st0 data_rows).counterCount ≤
      max st0.counterCount SEARCH_DAILY_LIMIT := by
  unfold enrichRun
  generalize data_rows.enum = l
  induction l generalizing st0 with
  | nil => simp [le_max_left]
  | cons p ps ih =>
    simp only [List.foldl_cons]
    have h1 := processRow_count L e c bk br st0 p.1 p.2
    have h2 := ih (processRow L e c bk br st0 p.1 p.2)
    refine ⟨le_trans h1.1 h2.1, le_trans h2.2 (max_le ?_ (le_max_right _ _))⟩
    exact h1.2

end enrich_companies

namespace enrich_company_info

lemma classifyStep_empty_company (f : Bool) (acc : List NeedItem × Nat)
    (ir : Nat × List String) (h : pyStrip (ir.2.getD COL_COMPANY "") = "") :
    classifyStep f acc ir = acc := by
  simp only [classifyStep]
  rw [if_pos h]

lemma classifyStep_nourl_complete (acc : List NeedItem × Nat)
    (ir : Nat × List String)
    (hc : pyStrip (ir.2.getD COL_COMPANY "") ≠ "")
    (hcontact : pyStrip (ir.2.getD COL_CONTACT "") ≠ "")
    (hinfo : pyStrip (ir.2.getD COL_INFO "") ≠ "")
    (hurl : pyLower (pyStrip (ir.2.getD COL_WEBSITE "")) = "no url") :
    classifyStep true acc ir = (acc.1, acc.2 + 1) := by
  have hw : pyStrip (ir.2.getD COL_WEBSITE "") ≠ "" := by
    intro h
    rw [h] at hurl
    exact absurd hurl (by decide)
  simp only [classifyStep]
  rw [if_neg hc]
  have h1 : (pyStrip (ir.2.getD COL_WEBSITE "") != "") = true := bne_iff_ne.mpr hw
  have h2 : decide (pyLower (pyStrip (ir.2.getD COL_WEBSITE "")) ∉
      (["", "n/a", "none"] : List String)) = true := by
    rw [hurl]
    decide
  have h3 : (pyStrip (ir.2.getD COL_CONTACT "") != "") = true := bne_iff_ne.mpr hcontact
  have h4 : (pyStrip (ir.2.getD COL_INFO "") != "") = true := bne_iff_ne.mpr hinfo
  rw [h1, h2, h3, h4]
  simp

lemma enrich_plan_processed_le (persisted : Option (String × Nat))
    (week_key : String) (apis : ApolloApis) (rows : List (List String)) :
    (enrich_plan false persisted week_key apis rows).processed ≤
      WEEKLY_LIMIT - (load_counter persisted week_key).2 := by
  unfold enrich_plan
  by_cases h1 : (!false && decide (WEEKLY_LIMIT ≤ (load_counter persisted week_key).2)) = true
  · rw [if_pos h1]
    simp
  · rw [if_neg h1]
    by_cases h2 : rows.length < 2
    · rw [if_pos h2]
      simp
    · rw [if_neg h2]
      by_cases h3 : (need_enrichment false rows).1 = []
      · rw [if_pos h3]
        simp
      · rw [if_neg h3]
        have hff : ¬ ((false : Bool) = true) := by simp
      
        simp only [if_neg hff]
        rw [List.length_take]
        exact min_le_left _ _

lemma enrich_plan_saved (f : Bool) (persisted : Option (String × Nat))
    (week_key : String) (apis : ApolloApis) (rows : List (List String)) (n : Nat) :
    (enrich_plan f persisted week_key apis rows).saved_count = some n →
    n = (load_counter persisted week_key).2 +
      (enrich_plan f persisted week_key apis rows).processed := by
  unfold enrich_plan
  by_cases h1 : (!f && decide (WEEKLY_LIMIT ≤ (load_counter persisted week_key).2)) = true
  · rw [if_pos h1]
    simp
  · rw [if_neg h1]
    by_cases h2 : rows.length < 2
    · rw [if_pos h2]
      simp
    · rw [if_neg h2]
      by_cases h3 : (need_enrichment f rows).1 = []
      · rw [if_pos h3]
        simp
      · rw [if_neg h3]
        intro h
        simp at h ⊢
        omega

end enrich_company_info

namespace enrich_companies

lemma dictLookup_append (m : List (String × String)) (p : String × String)
    (k : String) :
    dictLookup (m ++ [p]) k = if p.1 = k then some p.2 else dictLookup m k := by
  unfold dictLookup
  rw [List.reverse_append]
  simp only [List.reverse_singleton, List.singleton_append, List.find?_cons]
  by_cases h : p.1 = k
  · have hb : (p.1 == k) = true := beq_iff_eq.mpr h
    simp [hb, h]
  · have hb : (p.1 == k) = false := beq_eq_false_iff_ne.mpr h
    simp [hb, h]

lemma read_enrichment_data_concat (nc wc : Nat) (rows : List (List String))
    (row : List String) (hrows : rows ≠ []) (k : String) :
    dictLookup (read_enrichment_data nc wc (rows ++ [row])) k =
      (match rowContrib nc wc row with
       | some p => if p.1 = k then some p.2
                   else dictLookup (read_enrichment_data nc wc rows) k
       | none => dictLookup (read_enrichment_data nc wc rows) k) := by
  unfold read_enrichment_data
  have htail : (rows ++ [row]).tail = rows.tail ++ [row] := by
    cases rows with
    | nil => exact absurd rfl hrows
    | cons a t => simp
  rw [htail, List.foldl_concat, enrichRowStep_contrib]
  cases h : rowContrib nc wc row with
  | none => simp
  | some p => simp [dictLookup_append]

end enrich_companies

/-- C5 (counterexample): two enrichment rows whose names both normalize to
`"ACME"`: the built lookup maps the key to the SECOND row's website, so a
later row does override an earlier one, contradicting the first-seen rule. -/
theorem C5_last_row_wins_counterexample :
    dictLookup (enrich_companies.read_enrichment_data 0 1
      [["name", "website"], ["Acme", "https://one-acme.com"],
       ["ACME INC", "https://two-acme.com"]]) "ACME" = some "https://two-acme.com" ∧
    enrich_companies.normalize_company_name "Acme" = "ACME" ∧
    enrich_companies.normalize_company_name "ACME INC" = "ACME" ∧
    (some "https://two-acme.com" : Option String) ≠ some "https://one-acme.com" := by
  decide

/-- C5 (amended): `read_enrichment_data` builds the lookup with plain dict
assignment, so when two snapshot rows normalize to the same key the
last-seen qualifying row wins: appending one more row to the snapshot
overrides the value of its key and leaves every other key unchanged
(entries are never merged). -/
theorem C5_lookup_override_amended (nc wc : Nat) (rows : List (List String)) (row : List String)
    (hrows : rows ≠ []) (k : String) :
    dictLookup (enrich_companies.read_enrichment_data nc wc (rows ++ [row])) k =
      (match enrich_companies.rowContrib nc wc row with
       | some p => if p.1 = k then some p.2
                   else dictLookup (enrich_companies.read_enrichment_data nc wc rows) k
       | none => dictLookup (enrich_companies.read_enrichment_data nc wc rows) k) :=
  enrich_companies.read_enrichment_data_concat nc wc rows row hrows k

theorem C5_lookup_override_amended_witness :
    ([["h"]] : List (List String)) ≠ [] ∧
    dictLookup (enrich_companies.read_enrichment_data 0 1
        ([["h"]] ++ [["Acme", "https://one-acme.com"]])) "ACME" =
      (match enrich_companies.rowContrib 0 1 ["Acme", "https://one-acme.com"] with
       | some p => if p.1 = "ACME" then some p.2
                   else dictLookup (enrich_companies.read_enrichment_data 0 1 [["h"]]) "ACME"
       | none => dictLookup (enrich_companies.read_enrichment_data 0 1 [["h"]]) "ACME") :=
  ⟨by decide, C5_lookup_override_amended 0 1 [["h"]] ["Acme", "https://one-acme.com"] (by decide) "ACME"⟩

open enrich_companies in
/-- C1 (counterexample): the junk-clearing branch of `enrich` patches a cell
that already holds a non-placeholder value: a stored website
`"https://yelp.com"` (a blacklisted junk domain, but not a placeholder) is
cleared to the empty string, contradicting "a cell that already holds a
non-placeholder value is never patched — neither overwritten nor cleared". -/
theorem C1_junk_clear_counterexample :
    (processRow [] [] [] false (fun _ => []) ⟨0, [], 0, 0, 0, 0, 0⟩ 0
      ["", "Acme Co", "", "", "", "", "https://yelp.com"]).updates = [(0, "")] ∧
    pyLower (pyStrip "https://yelp.com") ∉ (["", "n/a", "none"] : List String) := by
  decide

open enrich_companies in
/-- C1 (amended): per `enrich` row, every emitted cell patch targets the
current row's website cell; a stored cell that is non-empty, not a
placeholder and not blacklisted is never patched; a placeholder cell with a
non-blacklisted lookup hit receives exactly one patch carrying the lookup
value; and a non-empty blacklisted cell is first cleared with an
empty-string patch. -/
theorem C1_website_patch_amended :
    (∀ (L : List (String × String)) (e c : List String) (bk : Bool)
        (br : String → List String) (st : EnrichState) (i : Nat) (row : List String),
      pyLower (pyStrip (row.getD WEBSITE_COL "")) ∉ (["", "n/a", "none"] : List String) →
      is_blacklisted (pyStrip (row.getD WEBSITE_COL "")) e c = false →
      (processRow L e c bk br st i row).updates = st.updates) ∧
    (∀ (L : List (String × String)) (e c : List String) (bk : Bool)
        (br : String → List String) (st : EnrichState) (i : Nat) (row : List String),
      ∃ tl, (processRow L e c bk br st i row).updates = st.updates ++ tl ∧
        ∀ p ∈ tl, p.1 = i) ∧
    (∀ (L : List (String × String)) (e c : List String) (bk : Bool)
        (br : String → List String) (st : EnrichState) (i : Nat) (row : List String),
      pyStrip (row.getD COMPANY_COL "") ≠ "" →
      is_blacklisted (pyStrip (row.getD WEBSITE_COL "")) e c = false →
      (pyStrip (row.getD WEBSITE_COL "") = "" ∨
        pyLower (pyStrip (row.getD WEBSITE_COL "")) ∈ (["n/a", "none"] : List String)) →
      dictContains L (normalize_company_name (pyStrip (row.getD COMPANY_COL ""))) = true →
      is_blacklisted ((dictLookup L (normalize_company_name
        (pyStrip (row.getD COMPANY_COL "")))).getD "") e c = false →
      processRow L e c bk br st i row =
        { st with
          updates := st.updates ++
            [(i, (dictLookup L (normalize_company_name
              (pyStrip (row.getD COMPANY_COL "")))).getD "")],
          stats := { st.stats with matched := st.stats.matched + 1 } }) ∧
    (∀ (L : List (String × String)) (e c : List String) (bk : Bool)
        (br : String → List String) (st : EnrichState) (i : Nat) (row : List String),
      pyStrip (row.getD COMPANY_COL "") ≠ "" →
      pyStrip (row.getD WEBSITE_COL "") ≠ "" →
      is_blacklisted (pyStrip (row.getD WEBSITE_COL "")) e c = true →
      ∃ tl, (processRow L e c bk br st i row).updates = st.updates ++ [(i, "")] ++ tl) := by
  refine ⟨?_, ?_, ?_, ?_⟩
  · intro L e c bk br st i row hpl hblack
    rw [processRow_populated_clean L e c bk br st i row hpl hblack]
    by_cases hc : pyStrip (row.getD COMPANY_COL "") = ""
    · rw [if_pos hc]
    · rw [if_neg hc]
  · intro L e c bk br st i row
    exact processRow_updates_shape L e c bk br st i row
  · intro L e c bk br st i row hc hblack hple hlkp hwb
    exact processRow_placeholder_match L e c bk br st i row hc hblack hple hlkp hwb
  · intro L e c bk br st i row hc hw hblack
    exact processRow_junk_cleared L e c bk br st i row hc hw hblack

open enrich_companies in
theorem C1_website_patch_amended_witness :
    pyStrip (( ["", "Acme Co", "", "", "", "", "None"] : List String).getD COMPANY_COL "") ≠ "" ∧
    processRow [("ACME", "https://acme-co.example")] [] [] false (fun _ => [])
        ⟨0, [], 0, 0, 0, 0, 0⟩ 0 ["", "Acme Co", "", "", "", "", "None"] =
      { counterCount := 0,
        updates := [(0, (dictLookup [("ACME", "https://acme-co.example")]
          (normalize_company_name (pyStrip ((["", "Acme Co", "", "", "", "", "None"] :
            List String).getD COMPANY_COL "")))).getD "")],
        stats := ⟨0, 1, 0, 0, 0⟩ } :=
  ⟨by decide,
   C1_website_patch_amended.2.2.1 [("ACME", "https://acme-co.example")] [] [] false (fun _ => [])
     ⟨0, [], 0, 0, 0, 0, 0⟩ 0 ["", "Acme Co", "", "", "", "", "None"]
     (by decide) (by decide) (by decide) (by decide) (by decide)⟩

open enrich_companies in
/-- C6 (counterexample): in the `enrich` row loop (src/enrich_companies.py
line 443) the placeholder tuple is only `("", "n/a", "none")`: a stored
website cell `"No URL"` is treated as real data (counted `already_has`, no
patch) although the same lookup entry patches an identically-situated row
storing `"None"`; so "no url" is not recognised at every site. -/
theorem C6_no_url_counterexample :
    (processRow [("ACME", "https://acme-co.example")] [] [] false
        (fun _ => []) ⟨0, [], 0, 0, 0, 0, 0⟩ 0
        ["", "Acme Co", "", "", "", "", "No URL"]).updates = [] ∧
    (processRow [("ACME", "https://acme-co.example")] [] [] false
        (fun _ => []) ⟨0, [], 0, 0, 0, 0, 0⟩ 0
        ["", "Acme Co", "", "", "", "", "No URL"]).stats.already_has = 1 ∧
    (processRow [("ACME", "https://acme-co.example")] [] [] false
        (fun _ => []) ⟨0, [], 0, 0, 0, 0, 0⟩ 0
        ["", "Acme Co", "", "", "", "", "None"]).updates =
      [(0, "https://acme-co.example")] ∧
    pyLower (pyStrip "No URL") = "no url" := by decide

open enrich_companies enrich_company_info in
/-- C6 (amended): `read_enrichment_data` treats `"", "no url", "n/a",
"none"` (case-insensitively) as absent, but the patch-eligibility tests in
`enrich_companies.enrich` and `enrich_company_info.enrich` recognise only
`"", "n/a", "none"`: a stored `"no url"` counts as real data there. -/
theorem C6_placeholder_sets_amended :
    (∀ (nc wc : Nat) (lookup : List (String × String)) (row : List String),
      pyLower (pyStrip (row.getD wc "")) ∈ (["", "no url", "n/a", "none"] : List String) →
      enrichRowStep nc wc lookup row = lookup) ∧
    (∀ (L : List (String × String)) (e c : List String) (bk : Bool)
        (br : String → List String) (st : EnrichState) (i : Nat) (row : List String),
      pyLower (pyStrip (row.getD enrich_companies.WEBSITE_COL "")) = "no url" →
      is_blacklisted (pyStrip (row.getD enrich_companies.WEBSITE_COL "")) e c = false →
      processRow L e c bk br st i row =
        (if pyStrip (row.getD COMPANY_COL "") = "" then st
         else { st with stats :=
           { st.stats with already_has := st.stats.already_has + 1 } })) ∧
    (∀ (acc : List NeedItem × Nat) (ir : Nat × List String),
      pyStrip (ir.2.getD enrich_company_info.COL_COMPANY "") ≠ "" →
      pyStrip (ir.2.getD COL_CONTACT "") ≠ "" →
      pyStrip (ir.2.getD COL_INFO "") ≠ "" →
      pyLower (pyStrip (ir.2.getD enrich_company_info.COL_WEBSITE "")) = "no url" →
      classifyStep true acc ir = (acc.1, acc.2 + 1)) := by
  refine ⟨?_, ?_, ?_⟩
  · intro nc wc lookup row h
    rw [enrichRowStep_contrib]
    suffices hco : rowContrib nc wc row = none by rw [hco]
    unfold rowContrib
    by_cases hlen : row.length ≤ max nc wc
    · rw [if_pos hlen]
    · rw [if_neg hlen]
      have hnc : nc < row.length := lt_of_le_of_lt (le_max_left nc wc) (lt_of_not_le hlen)
      have hwc : wc < row.length := lt_of_le_of_lt (le_max_right nc wc) (lt_of_not_le hlen)
      simp only [if_pos hnc, if_pos hwc]
      rw [if_neg]
      intro hcon
      exact hcon.2.2 h
  · intro L e c bk br st i row hurl hblack
    apply processRow_populated_clean
    · rw [hurl]
      decide
    · exact hblack
  · intro acc ir hc hcontact hinfo hurl
    exact classifyStep_nourl_complete acc ir hc hcontact hinfo hurl

open enrich_companies in
theorem C6_placeholder_sets_amended_witness :
    pyLower (pyStrip ((["x", "y", "No URL"] : List String).getD 2 "")) ∈
      (["", "no url", "n/a", "none"] : List String) ∧
    enrichRowStep 1 2 [] ["x", "y", "No URL"] = [] :=
  ⟨by decide, C6_placeholder_sets_amended.1 1 2 [] ["x", "y", "No URL"] (by decide)⟩

open enrich_companies enrich_company_info in
/-- C7 (counterexample): a record with an empty identity key is dropped but
NOT counted: the `enrich` row loop leaves the state — every counter
included — exactly unchanged (its `stats` dict has no "skipped" key at
all), and the classification loop of enrich_company_info likewise skips the
row without touching any counter. -/
theorem C7_no_skipped_counter_counterexample :
    processRow [] [] [] false (fun _ => []) ⟨0, [], 0, 0, 0, 0, 0⟩ 0 ["", "", "x"] =
      ⟨0, [], 0, 0, 0, 0, 0⟩ ∧
    classifyStep false ([], 0) (2, ["", ""]) = ([], 0) := by decide

open enrich_companies enrich_company_info in
/-- C7 (amended): records with an empty identity key are dropped silently:
they contribute no update, append or work item, and no counter of either
enrichment script records them. -/
theorem C7_empty_identity_amended :
    (∀ (L : List (String × String)) (e c : List String) (bk : Bool)
        (br : String → List String) (st : EnrichState) (i : Nat) (row : List String),
      pyStrip (row.getD enrich_companies.COMPANY_COL "") = "" →
      processRow L e c bk br st i row = st) ∧
    (∀ (f : Bool) (acc : List NeedItem × Nat) (ir : Nat × List String),
      pyStrip (ir.2.getD enrich_company_info.COL_COMPANY "") = "" →
      classifyStep f acc ir = acc) := by
  refine ⟨?_, ?_⟩
  · intro L e c bk br st i row h
    exact processRow_empty_company L e c bk br st i row h
  · intro f acc ir h
    exact classifyStep_empty_company f acc ir h

open enrich_companies in
theorem C7_empty_identity_amended_witness :
    pyStrip ((["", " ", "z"] : List String).getD COMPANY_COL "") = "" ∧
    processRow [] [] [] false (fun _ => []) ⟨3, [(1, "u")], 1, 1, 1, 1, 1⟩ 5
      ["", " ", "z"] = ⟨3, [(1, "u")], 1, 1, 1, 1, 1⟩ :=
  ⟨by decide, C7_empty_identity_amended.1 [] [] [] false (fun _ => []) ⟨3, [(1, "u")], 1, 1, 1, 1, 1⟩ 5
    ["", " ", "z"] (by decide)⟩

/-- C8 (counterexample): the Apollo weekly budget counts companies, not API
calls: with 49 of 50 budget units already persisted for the current week,
one remaining no-contact no-info company triggers 2 API requests
(`search_people` + `search_org_by_name`), exceeding the claimed bound of
budget minus persisted count = 1. -/
theorem C8_apollo_calls_counterexample :
    (enrich_company_info.enrich_plan false (some ("2026-W15", 49)) "2026-W15"
      apolloNoResultApis [["State", "Company Name"], ["", "Acme Co"]]).api_calls = 2 ∧
    enrich_company_info.WEEKLY_LIMIT -
      (enrich_company_info.load_counter (some ("2026-W15", 49)) "2026-W15").2 = 1 ∧
    ¬ (2 ≤ 1) := by decide

open enrich_companies enrich_company_info in
/-- C8 (amended): the Brave counter is monotone during a run and never
pushed beyond the daily limit (each Brave call adds exactly one, so calls
are capped at 50 minus the loaded count); the Apollo budget caps the number
of companies processed per non-first-run at 50 minus the persisted weekly
count and the saved counter equals loaded + processed; both persisted
counters reset to 0 whenever the stored period key differs from the
current day / ISO week. -/
theorem C8_budget_amended :
    (∀ (L : List (String × String)) (e c : List String) (bk : Bool)
        (br : String → List String) (st0 : EnrichState) (rows : List (List String)),
      st0.counterCount ≤ (enrichRun L e c bk br st0 rows).counterCount ∧
      (enrichRun L e c bk br st0 rows).counterCount ≤
        max st0.counterCount SEARCH_DAILY_LIMIT) ∧
    (∀ (persisted : Option (String × Nat)) (week_key : String)
        (apis : ApolloApis) (rows : List (List String)),
      (enrich_plan false persisted week_key apis rows).processed ≤
        WEEKLY_LIMIT - (load_counter persisted week_key).2) ∧
    (∀ (f : Bool) (persisted : Option (String × Nat)) (week_key : String)
        (apis : ApolloApis) (rows : List (List String)) (n : Nat),
      (enrich_plan f persisted week_key apis rows).saved_count = some n →
      n = (load_counter persisted week_key).2 +
        (enrich_plan f persisted week_key apis rows).processed) ∧
    (∀ (d : String) (cnt : Nat) (today : String), d ≠ today →
      load_search_counter (some (d, cnt)) today = (today, 0)) ∧
    (∀ (w : String) (cnt : Nat) (week_key : String), w ≠ week_key →
      load_counter (some (w, cnt)) week_key = (week_key, 0)) := by
  refine ⟨?_, ?_, ?_, ?_, ?_⟩
  · intro L e c bk br st0 rows
    exact enrichRun_count L e c bk br st0 rows
  · intro persisted week_key apis rows
    exact enrich_plan_processed_le persisted week_key apis rows
  · intro f persisted week_key apis rows n
    exact enrich_plan_saved f persisted week_key apis rows n
  · intro d cnt today h
    simp [load_search_counter, h]
  · intro w cnt week_key h
    simp [load_counter, h]

theorem C8_budget_amended_witness :
    ("2026-04-01" : String) ≠ "2026-04-02" ∧
    enrich_companies.load_search_counter (some ("2026-04-01", 7)) "2026-04-02" =
      ("2026-04-02", 0) :=
  ⟨by decide, C8_budget_amended.2.2.2.1 "2026-04-01" 7 "2026-04-02" (by decide)⟩

/- ### C10: vendorless Austin contracts -/

namespace austin_contracts

lemma parse_amount_comma50000 : parse_amount "50,000" = 50000 := by
  have h : pyFloatParse (removeChar ',' "50,000") = some ⟨false, 50000, 0, 0⟩ := by decide
  simp [parse_amount, h, PyNum.val]

lemma parse_amount_one : parse_amount "1" = 1 := by
  have h : pyFloatParse (removeChar ',' "1") = some ⟨false, 1, 0, 0⟩ := by decide
  simp [parse_amount, h, PyNum.val]

lemma processContract_pass (detailOf : String → Option Detail)
    (vendorOf : String → Option VendorInfo) (st : ScrapeState) (c : ListContract)
    (d : Detail) (nl0 nl : String × String) (b : PyDate)
    (hd : detailOf c.detail_url = some d)
    (hq : match_naics (c.list_description ++ " " ++ c.link_text) = some nl0)
    (hfull : match_naics (c.list_description ++ " " ++ d.commodity_desc) = some nl)
    (hb : parse_date d.begin_date_str = some b)
    (hmin : PyDate.lt b MIN_DATE = false)
    (hamt : ¬ (parse_amount d.amount_str < MIN_AMOUNT))
    (hexp : ¬ (parse_amount d.amount_expended_str ≤ 0)) :
    processContract detailOf vendorOf st c =
      (if (c.contract_id, if d.vendor = "" then "Unknown" else d.vendor) ∈ st.seen then st
       else
        { st with
          seen := st.seen ++ [(c.contract_id, if d.vendor = "" then "Unknown" else d.vendor)],
          results := st.results ++
            [{ company_name := if d.vendor = "" then "Unknown" else d.vendor,
               contract_name := c.list_description,
               award_amount := parse_amount d.amount_str,
               amount_expended := parse_amount d.amount_expended_str,
               begin_date := fmtDate b,
               award_link := c.detail_url,
               description := enhance_description c.list_description d.commodity_desc,
               commodity_type := nl.2 ++ " (NAICS " ++ nl.1 ++ ")",
               contact_name := (if d.vendor_code = "" then emptyVendorInfo
                 else (vendorOf d.vendor_code).getD emptyVendorInfo).contact_name,
               address := (if d.vendor_code = "" then emptyVendorInfo
                 else (vendorOf d.vendor_code).getD emptyVendorInfo).address,
               phone := (if d.vendor_code = "" then emptyVendorInfo
                 else (vendorOf d.vendor_code).getD emptyVendorInfo).phone,
               email := (if d.vendor_code = "" then emptyVendorInfo
                 else (vendorOf d.vendor_code).getD emptyVendorInfo).email,
               website := (if d.vendor_code = "" then emptyVendorInfo
                 else (vendorOf d.vendor_code).getD emptyVendorInfo).website,
               city := "Austin" }] }) := by
  unfold processContract
  simp only [hq, hd, hfull, hb]
  have hmin2 : ¬ (PyDate.lt b MIN_DATE = true) := by rw [hmin]; simp
  rw [if_neg hmin2, if_neg hamt, if_neg hexp]

end austin_contracts

open austin_contracts in
/-- C10: a contract detail page with no extractable vendor name is not
skipped: provided the NAICS, date and amount filters pass, the record is
emitted with `company_name = "Unknown"` and deduplicated under the key
`(contract_id, "Unknown")`, so two distinct vendorless contracts sharing a
contract id collapse into a single output row. -/
theorem C10_unknown_vendor_collapse (detailOf : String → Option Detail)
    (vendorOf : String → Option VendorInfo) (c1 c2 : ListContract)
    (d1 d2 : Detail) (nq1 nq2 nf1 nf2 : String × String) (b1 b2 : PyDate)
    (hd1 : detailOf c1.detail_url = some d1)
    (hd2 : detailOf c2.detail_url = some d2)
    (hv1 : d1.vendor = "") (hv2 : d2.vendor = "")
    (hid : c2.contract_id = c1.contract_id)
    (hq1 : match_naics (c1.list_description ++ " " ++ c1.link_text) = some nq1)
    (hq2 : match_naics (c2.list_description ++ " " ++ c2.link_text) = some nq2)
    (hf1 : match_naics (c1.list_description ++ " " ++ d1.commodity_desc) = some nf1)
    (hf2 : match_naics (c2.list_description ++ " " ++ d2.commodity_desc) = some nf2)
    (hb1 : parse_date d1.begin_date_str = some b1)
    (hb2 : parse_date d2.begin_date_str = some b2)
    (hm1 : PyDate.lt b1 MIN_DATE = false)
    (hm2 : PyDate.lt b2 MIN_DATE = false)
    (ha1 : ¬ (parse_amount d1.amount_str < MIN_AMOUNT))
    (ha2 : ¬ (parse_amount d2.amount_str < MIN_AMOUNT))
    (he1 : ¬ (parse_amount d1.amount_expended_str ≤ 0))
    (he2 : ¬ (parse_amount d2.amount_expended_str ≤ 0)) :
    (scrape_all [c1, c2] detailOf vendorOf).results.length = 1 ∧
    (∀ r ∈ (scrape_all [c1, c2] detailOf vendorOf).results, r.company_name = "Unknown") ∧
    (scrape_all [c1, c2] detailOf vendorOf).seen = [(c1.contract_id, "Unknown")] := by
  have hinit : scrape_all [c1, c2] detailOf vendorOf =
      processContract detailOf vendorOf
        (processContract detailOf vendorOf ⟨[], [], 0, 0, 0, 0, 0⟩ c1) c2 := rfl
  rw [hinit, processContract_pass detailOf vendorOf ⟨[], [], 0, 0, 0, 0, 0⟩ c1 d1
    nq1 nf1 b1 hd1 hq1 hf1 hb1 hm1 ha1 he1, hv1,
    show (if ("" : String) = "" then "Unknown" else "") = "Unknown" from rfl,
    if_neg (List.not_mem_nil _),
    processContract_pass detailOf vendorOf _ c2 d2 nq2 nf2 b2 hd2 hq2 hf2 hb2 hm2
      ha2 he2, hv2,
    show (if ("" : String) = "" then "Unknown" else "") = "Unknown" from rfl,
    hid, if_pos (by simp)]
  refine ⟨rfl, ?_, rfl⟩
  intro r hr
  simp at hr
  rw [hr]

namespace austin_contracts

lemma sample_amount_ge : ¬ (parse_amount "50,000" < MIN_AMOUNT) := by
  rw [parse_amount_comma50000]
  norm_num [MIN_AMOUNT]

lemma sample_expended_pos : ¬ (parse_amount "1" ≤ 0) := by
  rw [parse_amount_one]
  norm_num

end austin_contracts

open austin_contracts in
/-- Witness for C10 on two concrete vendorless contracts sharing id
`"MA100"`. -/
theorem C10_unknown_vendor_collapse_witness :
    (scrape_all [sampleContract1, sampleContract2]
      (fun _ => some sampleDetail) (fun _ => none)).results.length = 1 ∧
    (∀ r ∈ (scrape_all [sampleContract1, sampleContract2]
      (fun _ => some sampleDetail) (fun _ => none)).results,
      r.company_name = "Unknown") ∧
    (scrape_all [sampleContract1, sampleContract2]
      (fun _ => some sampleDetail) (fun _ => none)).seen = [("MA100", "Unknown")] :=
  C10_unknown_vendor_collapse (fun _ => some sampleDetail) (fun _ => none) sampleContract1 sampleContract2
    sampleDetail sampleDetail ("238210", "Electrical") ("238210", "Electrical")
    ("238210", "Electrical") ("238210", "Electrical") ⟨2025, 12, 1⟩ ⟨2025, 12, 1⟩
    rfl rfl rfl rfl rfl (by decide) (by decide) (by decide) (by decide)
    (by decide) (by decide) (by decide) (by decide)
    sample_amount_ge sample_amount_ge sample_expended_pos sample_expended_pos
